import Mathlib

/-!
Verification of the rosbag-rs ROS Bag v2.0 reader.

Shallow embedding of the crate's parsing core: bytes are `List Nat`
(each element a byte value `< 256`; little-endian reads take each byte
modulo 256, which is the identity on real bytes), the in-memory `Cursor`
is explicit state passed through `Except`, and fallible Rust functions
returning `anyhow::Result` become `Except Err`.

The crate declares modules `error` and `record_types` (the latter's
`mod.rs` holds the `HeaderGen`/`RecordGen` traits); those two files are
absent from the available sources, so the error enumeration and the
default `read_header` flow are modelled from the specification, as
marked on the corresponding definitions.
-/

namespace Rosbag

/-- Modelled from the spec: the closed error taxonomy of the missing
`error.rs` (`RosError`). Constructor names and payloads follow the
spec's kind table and the variants referenced from the sources. -/
inductive RosError where
  | OutOfBounds
  | InvalidHeader
  | InvalidRecord
  | UnsupportedVersion
  | UnexpectedChunkSectionRecord (kind : String)
  | UnexpectedIndexSectionRecord (kind : String)
  | UnexpectedMessageRecord (kind : String)
  | Bzip2DecompressionError (detail : String)
  | Lz4DecompressionError (detail : String)
deriving DecidableEq, Repr

/-- The `anyhow::Error` carried by `Result`: either a `RosError` or a
foreign error. The only foreign error reachable in the embedded code is
the `FromUtf8Error` propagated by `?` in `utils::read_record`. -/
inductive Err where
  | ros (e : RosError)
  | utf8Error
deriving DecidableEq, Repr

/-- Little-endian integer value of a byte list (`byteorder::LE` reads);
each byte is taken modulo 256 as the `u8` type guarantees. -/
def leBytes : List Nat → Nat
  | [] => 0
  | b :: rest => b % 256 + 256 * leBytes rest

/-- Byte list of an ASCII string literal (Rust `str::as_bytes`). -/
def asciiBytes (s : String) : List Nat :=
  s.data.map Char.toNat

/-- Is `b` a UTF-8 continuation byte (`0x80..=0xBF`)? -/
def isCont (b : Nat) : Bool :=
  128 ≤ b && b ≤ 191

/-- UTF-8 validity of a byte sequence, as checked by Rust's
`String::from_utf8` (WHATWG table: surrogates and overlong forms
rejected, four-byte sequences capped at U+10FFFF). -/
def validUtf8 : List Nat → Bool
  | [] => true
  | b :: rest =>
    if b < 128 then validUtf8 rest
    else if b < 194 then false
    else if b ≤ 223 then
      match rest with
      | c1 :: r => isCont c1 && validUtf8 r
      | [] => false
    else if b ≤ 239 then
      match rest with
      | c1 :: c2 :: r =>
        (if b = 224 then decide (160 ≤ c1 ∧ c1 ≤ 191)
         else if b = 237 then decide (128 ≤ c1 ∧ c1 ≤ 159)
         else isCont c1) && isCont c2 && validUtf8 r
      | _ => false
    else if b ≤ 244 then
      match rest with
      | c1 :: c2 :: c3 :: r =>
        (if b = 240 then decide (144 ≤ c1 ∧ c1 ≤ 191)
         else if b = 244 then decide (128 ≤ c1 ∧ c1 ≤ 143)
         else isCont c1) && isCont c2 && isCont c3 && validUtf8 r
      | _ => false
    else false

/-- `cursor::Cursor`: a position inside an immutable byte buffer. -/
structure Cursor where
  data : List Nat
  pos : Nat
deriving DecidableEq, Repr

namespace Cursor

/-- `Cursor::new`. -/
def new (data : List Nat) : Cursor := ⟨data, 0⟩

/-- `Cursor::len`. -/
def len (c : Cursor) : Nat := c.data.length

/-- `Cursor::left`. -/
def left (c : Cursor) : Nat := c.len - c.pos

/-- `Cursor::seek`: fails `OutOfBounds` when `pos > len`. -/
def seek (c : Cursor) (pos : Nat) : Except Err Cursor :=
  if pos > c.len then .error (.ros .OutOfBounds)
  else .ok { c with pos := pos }

/-- `Cursor::next_bytes`: fails `OutOfBounds` when fewer than `n`
bytes remain, otherwise returns the slice and the advanced cursor. -/
def next_bytes (c : Cursor) (n : Nat) : Except Err (List Nat × Cursor) :=
  if c.pos + n > c.len then .error (.ros .OutOfBounds)
  else .ok ((c.data.drop c.pos).take n, { c with pos := c.pos + n })

/-- `Cursor::next_u32`: 4-byte little-endian read. -/
def next_u32 (c : Cursor) : Except Err (Nat × Cursor) :=
  match c.next_bytes 4 with
  | .error e => .error e
  | .ok (b, c') => .ok (leBytes b, c')

/-- `Cursor::next_chunk`: a 4-byte length prefix then that many bytes. -/
def next_chunk (c : Cursor) : Except Err (List Nat × Cursor) :=
  match c.next_u32 with
  | .error e => .error e
  | .ok (n, c') => c'.next_bytes n

/-- `Cursor::next_time`: two little-endian u32s `(s, ns)` giving
`10^9 * s + ns` nanoseconds. -/
def next_time (c : Cursor) : Except Err (Nat × Cursor) :=
  match c.next_u32 with
  | .error e => .error e
  | .ok (s, c') =>
    match c'.next_u32 with
    | .error e => .error e
    | .ok (ns, c'') => .ok (1000000000 * s + ns, c'')

end Cursor

/-- Index of the first `'='` (byte 61) in a byte list
(`rec.iter().position(|x| *x == b'=')`). -/
def findEq : List Nat → Option Nat
  | [] => none
  | b :: rest => if b = 61 then some 0 else (findEq rest).map (· + 1)

/-- `record_types::utils::read_record`: read a 4-byte little-endian
field length, split the field on the first `'='`, return
`(name, value, leftover)`. Truncation or a missing `'='` is
`InvalidHeader`; a non-UTF-8 name propagates the `FromUtf8Error`. -/
def read_record (header : List Nat) : Except Err (List Nat × List Nat × List Nat) :=
  if header.length < 4 then .error (.ros .InvalidHeader)
  else
    let n := leBytes (header.take 4)
    let h1 := header.drop 4
    if h1.length < n then .error (.ros .InvalidHeader)
    else
      let fld := h1.take n
      let leftover := h1.drop n
      match findEq fld with
      | none => .error (.ros .InvalidHeader)
      | some delim =>
        if validUtf8 (fld.take delim) then
          .ok (fld.take delim, fld.drop (delim + 1), leftover)
        else .error .utf8Error

/-- One step of `field_iter::FieldIterator::next`: `none` when the
buffer is exhausted, otherwise the next item and the remaining buffer
(the buffer is left unchanged when the item is an error). -/
def fieldIterNext (buf : List Nat) :
    Option (Except Err (List Nat × List Nat) × List Nat) :=
  if buf.isEmpty then none
  else
    match read_record buf with
    | .error e => some (.error e, buf)
    | .ok (name, val, leftover) => some (.ok (name, val), leftover)

/-- A `for item in FieldIterator` loop threading a state through a
per-field step, faithful to the interleaving of framing errors and
step errors. `fuel` bounds recursion; every caller passes the buffer
length, which suffices since each field consumes at least four bytes. -/
def foldFields {σ : Type} (step : σ → List Nat → List Nat → Except Err σ) :
    Nat → σ → List Nat → Except Err σ
  | _, s, [] => .ok s
  | 0, _, _ :: _ => .error (.ros .InvalidHeader)
  | fuel + 1, s, b :: rest =>
    match read_record (b :: rest) with
    | .error e => .error e
    | .ok (name, val, leftover) =>
      match step s name val with
      | .error e => .error e
      | .ok s' => foldFields step fuel s' leftover

/-- Collect every `(name, value)` pair of a header buffer, i.e. the
full output of `FieldIterator` when no item errors. -/
def fieldsOfAux : Nat → List Nat → Except Err (List (List Nat × List Nat))
  | _, [] => .ok []
  | 0, _ :: _ => .error (.ros .InvalidHeader)
  | fuel + 1, b :: rest =>
    match read_record (b :: rest) with
    | .error e => .error e
    | .ok (name, val, leftover) =>
      match fieldsOfAux fuel leftover with
      | .error e => .error e
      | .ok l => .ok ((name, val) :: l)

/-- The decoded field list of a header buffer. -/
def fieldsOf (buf : List Nat) : Except Err (List (List Nat × List Nat)) :=
  fieldsOfAux buf.length buf

/-- The same step-fold over an already-decoded field list. -/
def listFold {σ : Type} (step : σ → List Nat → List Nat → Except Err σ) :
    σ → List (List Nat × List Nat) → Except Err σ
  | s, [] => .ok s
  | s, (name, val) :: rest =>
    match step s name val with
    | .error e => .error e
    | .ok s' => listFold step s' rest

/-- On a buffer whose fields all decode, the interleaved byte-level
fold agrees with the fold over the decoded field list. -/
theorem foldFields_eq_listFold {σ : Type}
    (step : σ → List Nat → List Nat → Except Err σ) :
    ∀ (fuel : Nat) (buf : List Nat) (l : List (List Nat × List Nat)) (s : σ),
      fieldsOfAux fuel buf = .ok l →
      foldFields step fuel s buf = listFold step s l := by
  intro fuel
  induction fuel with
  | zero =>
    intro buf l s h
    cases buf with
    | nil =>
      simp [fieldsOfAux] at h
      subst h
      simp [foldFields, listFold]
    | cons b rest => simp [fieldsOfAux] at h
  | succ fuel ih =>
    intro buf l s h
    cases buf with
    | nil =>
      simp [fieldsOfAux] at h
      subst h
      simp [foldFields, listFold]
    | cons b rest =>
      simp only [fieldsOfAux] at h
      simp only [foldFields]
      cases hr : read_record (b :: rest) with
      | error e => simp [hr] at h
      | ok v =>
        obtain ⟨name, val, leftover⟩ := v
        simp only [hr] at h
        cases hrest : fieldsOfAux fuel leftover with
        | error e => simp [hrest] at h
        | ok l' =>
          simp only [hrest] at h
          cases h
          simp only [listFold]
          cases hs : step s name val with
          | error e => rfl
          | ok s' => exact ih leftover l' s' hrest

/-- `utils::check_op`: the value must be exactly one byte equal to the
expected opcode, otherwise `InvalidRecord`. -/
def check_op (val : List Nat) (op : Nat) : Except Err Unit :=
  match val with
  | [b] => if b = op then .ok () else .error (.ros .InvalidRecord)
  | _ => .error (.ros .InvalidRecord)

/-- `utils::set_field_u64`: value must be 8 bytes wide and the field
not yet assigned, otherwise `InvalidHeader`. -/
def set_field_u64 (field : Option Nat) (val : List Nat) : Except Err (Option Nat) :=
  if val.length ≠ 8 ∨ field.isSome then .error (.ros .InvalidHeader)
  else .ok (some (leBytes val))

/-- `utils::set_field_u32`: value must be 4 bytes wide and the field
not yet assigned, otherwise `InvalidHeader`. -/
def set_field_u32 (field : Option Nat) (val : List Nat) : Except Err (Option Nat) :=
  if val.length ≠ 4 ∨ field.isSome then .error (.ros .InvalidHeader)
  else .ok (some (leBytes val))

/-- `utils::set_field_str`: the field must not be assigned yet and the
value must be valid UTF-8, otherwise `InvalidHeader`. The decoded text
is kept as its byte list. -/
def set_field_str (field : Option (List Nat)) (val : List Nat) :
    Except Err (Option (List Nat)) :=
  if field.isSome then .error (.ros .InvalidHeader)
  else if validUtf8 val then .ok (some val)
  else .error (.ros .InvalidHeader)

/-- `utils::set_field_time`: value must be 8 bytes wide and the field
unassigned; decodes `(s, ns)` as `10^9 * s + ns`. -/
def set_field_time (field : Option Nat) (val : List Nat) : Except Err (Option Nat) :=
  if val.length ≠ 8 ∨ field.isSome then .error (.ros .InvalidHeader)
  else .ok (some (1000000000 * leBytes (val.take 4) + leBytes (val.drop 4)))

/-! ## Record variants -/

/-- `record_types::index_data::IndexData`. -/
structure IndexData where
  ver : Nat
  conn_id : Nat
  data : List Nat
deriving DecidableEq, Repr

/-- `record_types::index_data::IndexDataHeader`. -/
structure IndexDataHeader where
  ver : Option Nat
  conn_id : Option Nat
  count : Option Nat
deriving DecidableEq, Repr

/-- `IndexDataHeader::process_field`, with the `op` check of the
default `read_header` folded in (op `0x04`). -/
def indexDataStep (s : IndexDataHeader) (name val : List Nat) :
    Except Err IndexDataHeader :=
  if name = asciiBytes "op" then
    match check_op val 4 with
    | .error e => .error e
    | .ok _ => .ok s
  else if name = asciiBytes "ver" then
    match set_field_u32 s.ver val with
    | .error e => .error e
    | .ok f => .ok { s with ver := f }
  else if name = asciiBytes "conn" then
    match set_field_u32 s.conn_id val with
    | .error e => .error e
    | .ok f => .ok { s with conn_id := f }
  else if name = asciiBytes "count" then
    match set_field_u32 s.count val with
    | .error e => .error e
    | .ok f => .ok { s with count := f }
  else .ok s

/-- Modelled from the spec: the default `HeaderGen::read_header` of the
missing `record_types/mod.rs` — walk the header fields, checking `op`
against the variant's opcode and handing every other field to
`process_field` (here `indexDataStep`). -/
def IndexData.read_header (buf : List Nat) : Except Err IndexDataHeader :=
  foldFields indexDataStep buf.length ⟨none, none, none⟩ buf

/-- `IndexData::read_data`: required fields, `ver == 1`, the data
length must satisfy `n % 12 == 0` and `n / 12 == count`, then `n`
bytes of entries are consumed. -/
def IndexData.read_data (c : Cursor) (h : IndexDataHeader) :
    Except Err (IndexData × Cursor) :=
  match h.ver, h.conn_id, h.count with
  | some ver, some conn_id, some count =>
    if ver ≠ 1 then .error (.ros .UnsupportedVersion)
    else
      match c.next_u32 with
      | .error e => .error e
      | .ok (n, c₁) =>
        if n % 12 ≠ 0 ∨ n / 12 ≠ count then .error (.ros .InvalidRecord)
        else
          match c₁.next_bytes n with
          | .error e => .error e
          | .ok (data, c₂) => .ok (⟨ver, conn_id, data⟩, c₂)
  | _, _, _ => .error (.ros .InvalidHeader)

/-- `record_types::chunk_info::ChunkInfo`. -/
structure ChunkInfo where
  ver : Nat
  chunk_pos : Nat
  start_time : Nat
  end_time : Nat
  data : List Nat
deriving DecidableEq, Repr

/-- `record_types::chunk_info::ChunkInfoHeader`. -/
structure ChunkInfoHeader where
  ver : Option Nat
  chunk_pos : Option Nat
  start_time : Option Nat
  end_time : Option Nat
  count : Option Nat
deriving DecidableEq, Repr

/-- `ChunkInfoHeader::process_field` with the default `op` check
(op `0x06`). -/
def chunkInfoStep (s : ChunkInfoHeader) (name val : List Nat) :
    Except Err ChunkInfoHeader :=
  if name = asciiBytes "op" then
    match check_op val 6 with
    | .error e => .error e
    | .ok _ => .ok s
  else if name = asciiBytes "ver" then
    match set_field_u32 s.ver val with
    | .error e => .error e
    | .ok f => .ok { s with ver := f }
  else if name = asciiBytes "chunk_pos" then
    match set_field_u64 s.chunk_pos val with
    | .error e => .error e
    | .ok f => .ok { s with chunk_pos := f }
  else if name = asciiBytes "start_time" then
    match set_field_time s.start_time val with
    | .error e => .error e
    | .ok f => .ok { s with start_time := f }
  else if name = asciiBytes "end_time" then
    match set_field_time s.end_time val with
    | .error e => .error e
    | .ok f => .ok { s with end_time := f }
  else if name = asciiBytes "count" then
    match set_field_u32 s.count val with
    | .error e => .error e
    | .ok f => .ok { s with count := f }
  else .ok s

/-- Modelled from the spec: default `read_header` for `ChunkInfo`. -/
def ChunkInfo.read_header (buf : List Nat) : Except Err ChunkInfoHeader :=
  foldFields chunkInfoStep buf.length ⟨none, none, none, none, none⟩ buf

/-- `ChunkInfo::read_data`: required fields, `ver == 1`, data length
`n % 8 == 0` and `n / 8 == count`, then `n` bytes of entries. -/
def ChunkInfo.read_data (c : Cursor) (h : ChunkInfoHeader) :
    Except Err (ChunkInfo × Cursor) :=
  match h.ver, h.chunk_pos, h.start_time, h.end_time, h.count with
  | some ver, some chunk_pos, some start_time, some end_time, some count =>
    if ver ≠ 1 then .error (.ros .UnsupportedVersion)
    else
      match c.next_u32 with
      | .error e => .error e
      | .ok (n, c₁) =>
        if n % 8 ≠ 0 ∨ n / 8 ≠ count then .error (.ros .InvalidRecord)
        else
          match c₁.next_bytes n with
          | .error e => .error e
          | .ok (data, c₂) => .ok (⟨ver, chunk_pos, start_time, end_time, data⟩, c₂)
  | _, _, _, _, _ => .error (.ros .InvalidHeader)

/-- `record_types::chunk::Compression`. -/
inductive Compression where
  | bzip2
  | lz4
  | nocompression
deriving DecidableEq, Repr

/-- The external bzip2/lz4 decoders (crates `bzip2` and `lz4`),
abstracted as functions from the compressed bytes to either the
decompressed bytes or an error string. -/
structure Decomp where
  bz2 : List Nat → Except String (List Nat)
  lz4 : List Nat → Except String (List Nat)

/-- `Compression::decompress`: identity for no compression; for bzip2
and lz4 the external decoder runs and its failure surfaces as
`Bzip2DecompressionError`/`Lz4DecompressionError`. The declared
decompressed size only pre-sizes the output buffer in the source and
is not observable. -/
def Compression.decompress (d : Decomp) (c : Compression) (data : List Nat)
    (_decompressed_size : Option Nat) : Except Err (List Nat) :=
  match c with
  | .bzip2 =>
    match d.bz2 data with
    | .ok v => .ok v
    | .error e => .error (.ros (.Bzip2DecompressionError e))
  | .lz4 =>
    match d.lz4 data with
    | .ok v => .ok v
    | .error e => .error (.ros (.Lz4DecompressionError e))
  | .nocompression => .ok data

/-- `record_types::chunk::Chunk`: compression mode plus the eagerly
decompressed data. -/
structure Chunk where
  compression : Compression
  data : List Nat
deriving DecidableEq, Repr

/-- `record_types::chunk::ChunkHeader`. -/
structure ChunkHeader where
  compression : Option Compression
  size : Option Nat
deriving DecidableEq, Repr

/-- `ChunkHeader::process_field` with the default `op` check
(op `0x05`): `compression` accepts exactly `none`, `bz2`, `lz4`. -/
def chunkStep (s : ChunkHeader) (name val : List Nat) :
    Except Err ChunkHeader :=
  if name = asciiBytes "op" then
    match check_op val 5 with
    | .error e => .error e
    | .ok _ => .ok s
  else if name = asciiBytes "compression" then
    if s.compression.isSome then .error (.ros .InvalidHeader)
    else if val = asciiBytes "none" then .ok { s with compression := some .nocompression }
    else if val = asciiBytes "bz2" then .ok { s with compression := some .bzip2 }
    else if val = asciiBytes "lz4" then .ok { s with compression := some .lz4 }
    else .error (.ros .InvalidHeader)
  else if name = asciiBytes "size" then
    match set_field_u32 s.size val with
    | .error e => .error e
    | .ok f => .ok { s with size := f }
  else .ok s

/-- Modelled from the spec: default `read_header` for `Chunk`. -/
def Chunk.read_header (buf : List Nat) : Except Err ChunkHeader :=
  foldFields chunkStep buf.length ⟨none, none⟩ buf

/-- `Chunk::read_data`: required fields, borrow the compressed blob via
`next_chunk`, decompress, and require the output length to equal the
declared `size` or fail `InvalidRecord`. -/
def Chunk.read_data (d : Decomp) (c : Cursor) (h : ChunkHeader) :
    Except Err (Chunk × Cursor) :=
  match h.compression, h.size with
  | some compression, some size =>
    match c.next_chunk with
    | .error e => .error e
    | .ok (blob, c₁) =>
      match compression.decompress d blob h.size with
      | .error e => .error e
      | .ok data =>
        if data.length ≠ size then .error (.ros .InvalidRecord)
        else .ok (⟨compression, data⟩, c₁)
  | _, _ => .error (.ros .InvalidHeader)

/-- `record_types::message_data::MessageData`. -/
structure MessageData where
  conn_id : Nat
  time : Nat
  data : List Nat
deriving DecidableEq, Repr

/-- `record_types::message_data::MessageDataHeader`. -/
structure MessageDataHeader where
  conn_id : Option Nat
  time : Option Nat
deriving DecidableEq, Repr

/-- `MessageDataHeader::process_field` with the default `op` check
(op `0x02`). -/
def messageDataStep (s : MessageDataHeader) (name val : List Nat) :
    Except Err MessageDataHeader :=
  if name = asciiBytes "op" then
    match check_op val 2 with
    | .error e => .error e
    | .ok _ => .ok s
  else if name = asciiBytes "conn" then
    match set_field_u32 s.conn_id val with
    | .error e => .error e
    | .ok f => .ok { s with conn_id := f }
  else if name = asciiBytes "time" then
    match set_field_time s.time val with
    | .error e => .error e
    | .ok f => .ok { s with time := f }
  else .ok s

/-- Modelled from the spec: default `read_header` for `MessageData`. -/
def MessageData.read_header (buf : List Nat) : Except Err MessageDataHeader :=
  foldFields messageDataStep buf.length ⟨none, none⟩ buf

/-- `MessageData::read_data`: required fields, then the payload is the
next length-prefixed blob. -/
def MessageData.read_data (c : Cursor) (h : MessageDataHeader) :
    Except Err (MessageData × Cursor) :=
  match h.conn_id, h.time with
  | some conn_id, some time =>
    match c.next_chunk with
    | .error e => .error e
    | .ok (data, c₁) => .ok (⟨conn_id, time, data⟩, c₁)
  | _, _ => .error (.ros .InvalidHeader)

/-- Value of a hexadecimal digit byte, lowercase letters only
(`base16ct::lower`). -/
def hexVal (b : Nat) : Option Nat :=
  if 48 ≤ b ∧ b ≤ 57 then some (b - 48)
  else if 97 ≤ b ∧ b ≤ 102 then some (b - 87)
  else none

/-- `base16ct::lower::decode`: pairs of lowercase hex digits to bytes;
fails on any other character or an odd length. -/
def decodeHexLower : List Nat → Option (List Nat)
  | [] => some []
  | [_] => none
  | hi :: lo :: rest =>
    match hexVal hi, hexVal lo, decodeHexLower rest with
    | some h, some l, some r => some ((16 * h + l) :: r)
    | _, _, _ => none

/-- `record_types::connection::Connection`. String-typed Rust fields
are kept as their (UTF-8 validated) byte lists. -/
structure Connection where
  id : Nat
  storage_topic : List Nat
  topic : List Nat
  tp : List Nat
  md5sum : List Nat
  message_definition : List Nat
  caller_id : List Nat
  latching : Bool
deriving DecidableEq, Repr

/-- `record_types::connection::ConnectionHeader`. -/
structure ConnectionHeader where
  id : Option Nat
  storage_topic : Option (List Nat)
deriving DecidableEq, Repr

/-- The field dispatch of `Connection`'s explicit `read_header`
(op `0x07`; `topic` fills `storage_topic`; `process_field` handles
`conn`). -/
def connectionHeaderStep (s : ConnectionHeader) (name val : List Nat) :
    Except Err ConnectionHeader :=
  if name = asciiBytes "op" then
    match check_op val 7 with
    | .error e => .error e
    | .ok _ => .ok s
  else if name = asciiBytes "topic" then
    match set_field_str s.storage_topic val with
    | .error e => .error e
    | .ok f => .ok { s with storage_topic := f }
  else if name = asciiBytes "conn" then
    match set_field_u32 s.id val with
    | .error e => .error e
    | .ok f => .ok { s with id := f }
  else .ok s

/-- `Connection`'s explicit `HeaderGen::read_header` (a loop over
`read_record`, as written in the source). -/
def Connection.read_header (buf : List Nat) : Except Err ConnectionHeader :=
  foldFields connectionHeaderStep buf.length ⟨none, none⟩ buf

/-- State accumulated by the loop of `Connection::read_data` over the
secondary header. -/
structure ConnState where
  topic : Option (List Nat)
  tp : Option (List Nat)
  md5sum : Option (List Nat)
  message_definition : Option (List Nat)
  caller_id : Option (List Nat)
  latching : Bool
deriving DecidableEq, Repr

/-- One field of `Connection::read_data`'s secondary-header loop:
`md5sum` must be unassigned, 32 bytes and lowercase hex or the record
fails `InvalidRecord`; `latching` inspects only the value's first byte
(`'1'` true, `'0'` false, anything else — including an empty value —
`InvalidRecord`); unknown fields are ignored. -/
def connDataStep (s : ConnState) (name val : List Nat) :
    Except Err ConnState :=
  if name = asciiBytes "topic" then
    match set_field_str s.topic val with
    | .error e => .error e
    | .ok f => .ok { s with topic := f }
  else if name = asciiBytes "type" then
    match set_field_str s.tp val with
    | .error e => .error e
    | .ok f => .ok { s with tp := f }
  else if name = asciiBytes "md5sum" then
    if s.md5sum.isSome ∨ val.length ≠ 32 then .error (.ros .InvalidRecord)
    else
      match decodeHexLower val with
      | some r => .ok { s with md5sum := some r }
      | none => .error (.ros .InvalidRecord)
  else if name = asciiBytes "message_definition" then
    match set_field_str s.message_definition val with
    | .error e => .error e
    | .ok f => .ok { s with message_definition := f }
  else if name = asciiBytes "callerid" then
    match set_field_str s.caller_id val with
    | .error e => .error e
    | .ok f => .ok { s with caller_id := f }
  else if name = asciiBytes "latching" then
    match val.head? with
    | some b =>
      if b = 49 then .ok { s with latching := true }
      else if b = 48 then .ok { s with latching := false }
      else .error (.ros .InvalidRecord)
    | none => .error (.ros .InvalidRecord)
  else .ok s

/-- The initial `ConnState` of `Connection::read_data`. -/
def connStateInit : ConnState := ⟨none, none, none, none, none, false⟩

/-- `Connection::read_data`: promote the primary-header fields, read
the secondary header blob, walk its fields, then promote the required
secondary fields (`callerid` defaults to empty, `latching` to false). -/
def Connection.read_data (c : Cursor) (h : ConnectionHeader) :
    Except Err (Connection × Cursor) :=
  match h.id, h.storage_topic with
  | some id, some storage_topic =>
    match c.next_chunk with
    | .error e => .error e
    | .ok (buf, c₁) =>
      match foldFields connDataStep buf.length connStateInit buf with
      | .error e => .error e
      | .ok s =>
        match s.topic, s.tp, s.md5sum, s.message_definition with
        | some topic, some tp, some md5sum, some message_definition =>
          .ok (⟨id, storage_topic, topic, tp, md5sum, message_definition,
                s.caller_id.getD [], s.latching⟩, c₁)
        | _, _, _, _ => .error (.ros .InvalidHeader)
  | _, _ => .error (.ros .InvalidHeader)

/-! ## Generic record reader and section iterators -/

/-- `record::Record`: the closed union of the five record kinds. -/
inductive Record where
  | Chunk (v : Chunk)
  | Connection (v : Connection)
  | MessageData (v : MessageData)
  | IndexData (v : IndexData)
  | ChunkInfo (v : ChunkInfo)
deriving DecidableEq, Repr

/-- `Record::get_type`: the kind name carried by the unexpected-record
errors. -/
def Record.get_type : Record → String
  | .Chunk _ => "Chunk"
  | .Connection _ => "Connection"
  | .MessageData _ => "MessageData"
  | .IndexData _ => "IndexData"
  | .ChunkInfo _ => "ChunkInfo"

/-- The op-search loop of `Record::next_record`: walk the header fields
until one named `op` appears; a 1-byte value is the opcode, any other
width is `InvalidRecord`; field-framing errors propagate; no `op`
leaves `none`. -/
def findOp : Nat → List Nat → Except Err (Option Nat)
  | _, [] => .ok none
  | 0, _ :: _ => .error (.ros .InvalidHeader)
  | fuel + 1, b :: rest =>
    match read_record (b :: rest) with
    | .error e => .error e
    | .ok (name, val, leftover) =>
      if name = asciiBytes "op" then
        match val with
        | [v] => .ok (some v)
        | _ => .error (.ros .InvalidRecord)
      else findOp fuel leftover

/-- `Record::next_record`: read the header blob, find `op`, dispatch to
the variant's `read` (its `read_header` then `read_data`); an unknown
or missing `op` is `InvalidRecord`. The preliminary `next_u32`/`seek`
pair of the source only re-reads the length for a debug print. -/
def Record.next_record (d : Decomp) (c : Cursor) : Except Err (Record × Cursor) :=
  let header_pos := c.pos
  match c.next_u32 with
  | .error e => .error e
  | .ok (_header_len_entry, c₀) =>
    match c₀.seek header_pos with
    | .error e => .error e
    | .ok c₁ =>
      match c₁.next_chunk with
      | .error e => .error e
      | .ok (header, c₂) =>
        match findOp header.length header with
        | .error e => .error e
        | .ok op =>
          match op with
          | some 4 =>
            match IndexData.read_header header with
            | .error e => .error e
            | .ok h =>
              match IndexData.read_data c₂ h with
              | .error e => .error e
              | .ok (v, c₃) => .ok (.IndexData v, c₃)
          | some 5 =>
            match Chunk.read_header header with
            | .error e => .error e
            | .ok h =>
              match Chunk.read_data d c₂ h with
              | .error e => .error e
              | .ok (v, c₃) => .ok (.Chunk v, c₃)
          | some 6 =>
            match ChunkInfo.read_header header with
            | .error e => .error e
            | .ok h =>
              match ChunkInfo.read_data c₂ h with
              | .error e => .error e
              | .ok (v, c₃) => .ok (.ChunkInfo v, c₃)
          | some 7 =>
            match Connection.read_header header with
            | .error e => .error e
            | .ok h =>
              match Connection.read_data c₂ h with
              | .error e => .error e
              | .ok (v, c₃) => .ok (.Connection v, c₃)
          | some 2 =>
            match MessageData.read_header header with
            | .error e => .error e
            | .ok h =>
              match MessageData.read_data c₂ h with
              | .error e => .error e
              | .ok (v, c₃) => .ok (.MessageData v, c₃)
          | _ => .error (.ros .InvalidRecord)

/-- `chunk_iter::ChunkRecord`. -/
inductive ChunkRecord where
  | Chunk (v : Chunk)
  | IndexData (v : IndexData)
deriving DecidableEq, Repr

/-- `chunk_iter::ChunkRecordsIterator`: a cursor over the chunk
section plus the section's absolute file offset. -/
structure ChunkRecordsIterator where
  cursor : Cursor
  offset : Nat
deriving DecidableEq, Repr

/-- `ChunkRecordsIterator::seek`: `pos` is an absolute file offset;
below the section start is `OutOfBounds`, otherwise the cursor seek
(which rejects positions past the section end). -/
def ChunkRecordsIterator.seek (it : ChunkRecordsIterator) (pos : Nat) :
    Except Err ChunkRecordsIterator :=
  if pos < it.offset then .error (.ros .OutOfBounds)
  else
    match it.cursor.seek (pos - it.offset) with
    | .error e => .error e
    | .ok c => .ok { it with cursor := c }

/-- `ChunkRecordsIterator::next`: `none` when the section is exhausted;
`Chunk` and `IndexData` pass through; any other successfully parsed
record becomes `UnexpectedChunkSectionRecord` with its kind name. On a
parse error the model keeps the prior cursor (the source leaves the
position unreliable). -/
def ChunkRecordsIterator.next (d : Decomp) (it : ChunkRecordsIterator) :
    Option (Except Err ChunkRecord) × ChunkRecordsIterator :=
  if it.cursor.left = 0 then (none, it)
  else
    match Record.next_record d it.cursor with
    | .ok (.Chunk v, c) => (some (.ok (.Chunk v)), { it with cursor := c })
    | .ok (.IndexData v, c) => (some (.ok (.IndexData v)), { it with cursor := c })
    | .ok (r, c) =>
      (some (.error (.ros (.UnexpectedChunkSectionRecord r.get_type))),
       { it with cursor := c })
    | .error e => (some (.error e), it)

/-- `index_iter::IndexRecord`. -/
inductive IndexRecord where
  | IndexData (v : IndexData)
  | Connection (v : Connection)
  | ChunkInfo (v : ChunkInfo)
deriving DecidableEq, Repr

/-- `index_iter::IndexRecordsIterator`. -/
structure IndexRecordsIterator where
  cursor : Cursor
  offset : Nat
deriving DecidableEq, Repr

/-- `IndexRecordsIterator::seek`: same protocol as the chunk-section
iterator. -/
def IndexRecordsIterator.seek (it : IndexRecordsIterator) (pos : Nat) :
    Except Err IndexRecordsIterator :=
  if pos < it.offset then .error (.ros .OutOfBounds)
  else
    match it.cursor.seek (pos - it.offset) with
    | .error e => .error e
    | .ok c => .ok { it with cursor := c }

/-- `IndexRecordsIterator::next`: allows `IndexData`, `Connection` and
`ChunkInfo`; anything else is `UnexpectedIndexSectionRecord`. -/
def IndexRecordsIterator.next (d : Decomp) (it : IndexRecordsIterator) :
    Option (Except Err IndexRecord) × IndexRecordsIterator :=
  if it.cursor.left = 0 then (none, it)
  else
    match Record.next_record d it.cursor with
    | .ok (.IndexData v, c) => (some (.ok (.IndexData v)), { it with cursor := c })
    | .ok (.Connection v, c) => (some (.ok (.Connection v)), { it with cursor := c })
    | .ok (.ChunkInfo v, c) => (some (.ok (.ChunkInfo v)), { it with cursor := c })
    | .ok (r, c) =>
      (some (.error (.ros (.UnexpectedIndexSectionRecord r.get_type))),
       { it with cursor := c })
    | .error e => (some (.error e), it)

/-- `msg_iter::MessageRecord`. -/
inductive MessageRecord where
  | MessageData (v : MessageData)
  | Connection (v : Connection)
deriving DecidableEq, Repr

/-- `msg_iter::MessageRecordsIterator`: a cursor over a chunk's
decompressed buffer. -/
structure MessageRecordsIterator where
  cursor : Cursor
deriving DecidableEq, Repr

/-- `MessageRecordsIterator::new`. -/
def MessageRecordsIterator.new (data : List Nat) : MessageRecordsIterator :=
  ⟨Cursor.new data⟩

/-- `Chunk::messages`. -/
def Chunk.messages (v : Chunk) : MessageRecordsIterator :=
  MessageRecordsIterator.new v.data

/-- `MessageRecordsIterator::seek`: offsets are relative to the
decompressed buffer and delegate directly to the cursor. -/
def MessageRecordsIterator.seek (it : MessageRecordsIterator) (offset : Nat) :
    Except Err MessageRecordsIterator :=
  match it.cursor.seek offset with
  | .error e => .error e
  | .ok c => .ok ⟨c⟩

/-- `MessageRecordsIterator::next`: allows `MessageData` and
`Connection`; anything else is `UnexpectedMessageRecord`. -/
def MessageRecordsIterator.next (d : Decomp) (it : MessageRecordsIterator) :
    Option (Except Err MessageRecord) × MessageRecordsIterator :=
  if it.cursor.left = 0 then (none, it)
  else
    match Record.next_record d it.cursor with
    | .ok (.MessageData v, c) => (some (.ok (.MessageData v)), ⟨c⟩)
    | .ok (.Connection v, c) => (some (.ok (.Connection v)), ⟨c⟩)
    | .ok (r, c) =>
      (some (.error (.ros (.UnexpectedMessageRecord r.get_type))), ⟨c⟩)
    | .error e => (some (.error e), it)

/-! ## Entries iterators -/

/-- `index_data::IndexDataEntry`. -/
structure IndexDataEntry where
  time : Nat
  offset : Nat
deriving DecidableEq, Repr

/-- `chunk_info::ChunkInfoEntry`. -/
structure ChunkInfoEntry where
  conn_id : Nat
  count : Nat
deriving DecidableEq, Repr

/-- Outcome of one `next` call on an entries iterator: exhausted,
the source's `panic!` branch, or a yielded element (a failing
`.expect` also panics). -/
inductive EntriesStep (α : Type) where
  | done
  | panicked
  | yield (a : α)
deriving DecidableEq, Repr

/-- `IndexDataEntriesIterator::next`: done at `left == 0`, panic when
`0 < left < 12`, otherwise a `(time, offset)` entry. -/
def indexEntriesNext (c : Cursor) : EntriesStep (IndexDataEntry × Cursor) :=
  if c.left = 0 then .done
  else if c.left < 12 then .panicked
  else
    match c.next_time with
    | .error _ => .panicked
    | .ok (time, c₁) =>
      match c₁.next_u32 with
      | .error _ => .panicked
      | .ok (offset, c₂) => .yield (⟨time, offset⟩, c₂)

/-- Drive `IndexDataEntriesIterator` to exhaustion, collecting the
entries; `none` marks a panic (or fuel short of the entry count). -/
def indexEntriesRun : Nat → Cursor → Option (List IndexDataEntry)
  | fuel, c =>
    match indexEntriesNext c with
    | .done => some []
    | .panicked => none
    | .yield (e, c') =>
      match fuel with
      | 0 => none
      | fuel' + 1 => (indexEntriesRun fuel' c').map (e :: ·)

/-- `IndexData::entries` followed by full iteration. -/
def IndexData.entriesList (v : IndexData) : Option (List IndexDataEntry) :=
  indexEntriesRun v.data.length (Cursor.new v.data)

/-- `ChunkInfoEntriesIterator::next`: done at `left == 0`, panic when
`0 < left < 8`, otherwise a `(conn_id, count)` entry. -/
def chunkInfoEntriesNext (c : Cursor) : EntriesStep (ChunkInfoEntry × Cursor) :=
  if c.left = 0 then .done
  else if c.left < 8 then .panicked
  else
    match c.next_u32 with
    | .error _ => .panicked
    | .ok (conn_id, c₁) =>
      match c₁.next_u32 with
      | .error _ => .panicked
      | .ok (count, c₂) => .yield (⟨conn_id, count⟩, c₂)

/-- Drive `ChunkInfoEntriesIterator` to exhaustion. -/
def chunkInfoEntriesRun : Nat → Cursor → Option (List ChunkInfoEntry)
  | fuel, c =>
    match chunkInfoEntriesNext c with
    | .done => some []
    | .panicked => none
    | .yield (e, c') =>
      match fuel with
      | 0 => none
      | fuel' + 1 => (chunkInfoEntriesRun fuel' c').map (e :: ·)

/-- `ChunkInfo::entries` followed by full iteration. -/
def ChunkInfo.entriesList (v : ChunkInfo) : Option (List ChunkInfoEntry) :=
  chunkInfoEntriesRun v.data.length (Cursor.new v.data)

/-! ## Bag opener -/

/-- `VERSION_LEN`: length of the magic `"#ROSBAG V2.0\n"`. -/
def VERSION_LEN : Nat := 13

/-- `ROSBAG_HEADER_SIZE`. -/
def ROSBAG_HEADER_SIZE : Nat := 4096

/-- The magic bytes `"#ROSBAG V2.0\n"`. -/
def versionBytes : List Nat := asciiBytes "#ROSBAG V2.0\n"

/-- `lib::BagHeader`. -/
structure BagHeader where
  index_pos : Nat
  conn_count : Nat
  chunk_count : Nat
deriving DecidableEq, Repr

/-- The mutable locals of `parse_bag_header`'s field loop. -/
structure BagFieldState where
  index_pos : Option Nat
  conn_count : Option Nat
  chunk_count : Option Nat
  op : Bool
deriving DecidableEq, Repr

/-- One field of `parse_bag_header`'s loop: `op` is checked against
`0x03` and flips the `op` flag; the three numeric fields go through
`set_field_u64`/`set_field_u32`; unknown fields only log. -/
def bagStep (s : BagFieldState) (name val : List Nat) :
    Except Err BagFieldState :=
  if name = asciiBytes "op" then
    match check_op val 3 with
    | .error e => .error e
    | .ok _ => .ok { s with op := true }
  else if name = asciiBytes "index_pos" then
    match set_field_u64 s.index_pos val with
    | .error e => .error e
    | .ok f => .ok { s with index_pos := f }
  else if name = asciiBytes "conn_count" then
    match set_field_u32 s.conn_count val with
    | .error e => .error e
    | .ok f => .ok { s with conn_count := f }
  else if name = asciiBytes "chunk_count" then
    match set_field_u32 s.chunk_count val with
    | .error e => .error e
    | .ok f => .ok { s with chunk_count := f }
  else .ok s

/-- `ObjectCursor::read_bytes` over the whole file's bytes. -/
def object_read_bytes (file : List Nat) (pos n : Nat) : Except Err (List Nat) :=
  if pos + n > file.length then .error (.ros .OutOfBounds)
  else .ok ((file.drop pos).take n)

/-- `ObjectCursor::read_u32` (the source delegates the bounds check to
the object store's `get_range`, whose out-of-range failure is modelled
as `OutOfBounds`). -/
def object_read_u32 (file : List Nat) (pos : Nat) : Except Err Nat :=
  if pos + 4 > file.length then .error (.ros .OutOfBounds)
  else .ok (leBytes ((file.drop pos).take 4))

/-- `ObjectCursor::read_chunk`. -/
def object_read_chunk (file : List Nat) (pos : Nat) : Except Err (List Nat) :=
  match object_read_u32 file pos with
  | .error e => .error e
  | .ok n => object_read_bytes file (pos + 4) n

/-- `lib::parse_bag_header`: check the magic, read the bag-header
record's header blob, run the field loop, require `index_pos`,
`conn_count`, `chunk_count` and the `op` flag, read the data length,
and return `VERSION_LEN + ROSBAG_HEADER_SIZE` as the start position
together with the parsed `BagHeader`. -/
def parse_bag_header (file : List Nat) : Except Err (Nat × BagHeader) :=
  match object_read_bytes file 0 VERSION_LEN with
  | .error e => .error e
  | .ok bytes =>
    if bytes ≠ versionBytes then .error (.ros .InvalidHeader)
    else
      match object_read_chunk file VERSION_LEN with
      | .error e => .error e
      | .ok header =>
        match foldFields bagStep header.length ⟨none, none, none, false⟩ header with
        | .error e => .error e
        | .ok s =>
          match s.index_pos, s.conn_count, s.chunk_count, s.op with
          | some index_pos, some conn_count, some chunk_count, true =>
            match object_read_u32 file (VERSION_LEN + header.length + 4) with
            | .error e => .error e
            | .ok _data_len =>
              .ok (VERSION_LEN + ROSBAG_HEADER_SIZE,
                   ⟨index_pos, conn_count, chunk_count⟩)
          | _, _, _, _ => .error (.ros .InvalidHeader)

/-! ## Helper lemmas -/

theorem Cursor.next_bytes_of_le (c : Cursor) (n : Nat) (h : c.pos + n ≤ c.len) :
    c.next_bytes n = .ok ((c.data.drop c.pos).take n, ⟨c.data, c.pos + n⟩) := by
  simp only [Cursor.next_bytes, gt_iff_lt, Nat.not_lt.mpr h, if_false]

theorem Cursor.next_u32_of_le (c : Cursor) (h : c.pos + 4 ≤ c.len) :
    c.next_u32 = .ok (leBytes ((c.data.drop c.pos).take 4), ⟨c.data, c.pos + 4⟩) := by
  simp only [Cursor.next_u32, Cursor.next_bytes_of_le c 4 h]

theorem Cursor.next_bytes_ok_shape (c c' : Cursor) (n : Nat) (b : List Nat)
    (h : c.next_bytes n = .ok (b, c')) :
    b.length = n ∧ c'.data = c.data ∧ c'.pos = c.pos + n := by
  unfold Cursor.next_bytes at h
  split at h
  · exact absurd h (by simp)
  · rename_i hle
    injection h with h
    injection h with h1 h2
    subst h1 h2
    refine ⟨?_, rfl, rfl⟩
    simp only [List.length_take, List.length_drop]
    simp only [Cursor.len] at hle
    omega

theorem Cursor.next_u32_ok_shape (c c' : Cursor) (v : Nat)
    (h : c.next_u32 = .ok (v, c')) :
    c'.data = c.data ∧ c'.pos = c.pos + 4 := by
  unfold Cursor.next_u32 at h
  cases hb : c.next_bytes 4 with
  | error e => rw [hb] at h; exact absurd h (by simp)
  | ok p =>
    rw [hb] at h
    injection h with h
    obtain ⟨b, c''⟩ := p
    injection h with h1 h2
    subst h2
    exact ⟨(Cursor.next_bytes_ok_shape c c'' 4 b hb).2.1,
           (Cursor.next_bytes_ok_shape c c'' 4 b hb).2.2⟩

/-- `listFold` over an appended list runs the two halves in sequence. -/
theorem listFold_append {σ : Type} (step : σ → List Nat → List Nat → Except Err σ) :
    ∀ (l₁ l₂ : List (List Nat × List Nat)) (s : σ),
      listFold step s (l₁ ++ l₂) =
        match listFold step s l₁ with
        | .error e => .error e
        | .ok s' => listFold step s' l₂ := by
  intro l₁
  induction l₁ with
  | nil => intro l₂ s; rfl
  | cons x rest ih =>
    intro l₂ s
    obtain ⟨name, val⟩ := x
    simp only [List.cons_append, listFold]
    cases step s name val with
    | error e => rfl
    | ok s' => exact ih l₂ s'

/-! ## Concrete byte-level inputs for witnesses and counterexamples -/

/-- 4-byte little-endian encoding of `n`. -/
def u32le (n : Nat) : List Nat :=
  [n % 256, n / 256 % 256, n / 65536 % 256, n / 16777216 % 256]

/-- 8-byte little-endian encoding of `n`. -/
def u64le (n : Nat) : List Nat :=
  u32le (n % 4294967296) ++ u32le (n / 4294967296)

/-- A length-prefixed `name=value` header field. -/
def mkField (name : String) (val : List Nat) : List Nat :=
  u32le ((asciiBytes name).length + 1 + val.length) ++ asciiBytes name ++ [61] ++ val

/-- A full record: length-prefixed header then length-prefixed data. -/
def mkRecordBytes (header data : List Nat) : List Nat :=
  u32le header.length ++ header ++ u32le data.length ++ data

/-- A decompression backend whose decoders always fail (uncompressed
records never invoke it). -/
def noDecomp : Decomp := ⟨fun _ => .error "unused", fun _ => .error "unused"⟩

/-- The header blob of a minimal valid bag-header record. -/
def minimalBagHeaderBlob : List Nat :=
  mkField "op" [3] ++ mkField "index_pos" (u64le 4109) ++
  mkField "conn_count" (u32le 0) ++ mkField "chunk_count" (u32le 0)

/-- A minimal valid bag file: magic, bag-header record, empty data. -/
def minimalBagFile : List Nat :=
  versionBytes ++ u32le minimalBagHeaderBlob.length ++ minimalBagHeaderBlob ++ u32le 0

/-- A bag-header blob whose `op=0x03` field appears twice while the
three numeric fields appear exactly once. -/
def dupOpBagHeaderBlob : List Nat :=
  mkField "op" [3] ++ mkField "op" [3] ++ mkField "index_pos" (u64le 4109) ++
  mkField "conn_count" (u32le 0) ++ mkField "chunk_count" (u32le 0)

/-- A bag file whose header record carries the duplicated `op` blob. -/
def dupOpBagFile : List Nat :=
  versionBytes ++ u32le dupOpBagHeaderBlob.length ++ dupOpBagHeaderBlob ++ u32le 0

/-- A complete, valid `ChunkInfo` record (`count = 0`). -/
def chunkInfoRecordBytes : List Nat :=
  mkRecordBytes
    (mkField "op" [6] ++ mkField "ver" (u32le 1) ++ mkField "chunk_pos" (u64le 0) ++
     mkField "start_time" (u64le 0) ++ mkField "end_time" (u64le 0) ++
     mkField "count" (u32le 0))
    []

/-- A complete, valid `MessageData` record with a 4-byte payload. -/
def messageDataRecordBytes : List Nat :=
  mkRecordBytes
    (mkField "op" [2] ++ mkField "conn" (u32le 7) ++ mkField "time" (u64le 0))
    [42, 0, 0, 0]

/-- A complete, valid `IndexData` record (`count = 0`). -/
def indexDataRecordBytes : List Nat :=
  mkRecordBytes
    (mkField "op" [4] ++ mkField "ver" (u32le 1) ++ mkField "conn" (u32le 7) ++
     mkField "count" (u32le 0))
    []

/-- A valid `Connection` secondary header whose `latching` value is the
two bytes `"00"`. -/
def connSecondaryLatching00 : List Nat :=
  mkField "topic" (asciiBytes "/a") ++ mkField "type" (asciiBytes "t") ++
  mkField "md5sum" (List.replicate 32 97) ++ mkField "message_definition" [] ++
  mkField "latching" [48, 48]

/-- A `Connection` secondary header whose `md5sum` value is 31 bytes. -/
def connSecondaryShortMd5 : List Nat :=
  mkField "topic" (asciiBytes "/a") ++ mkField "type" (asciiBytes "t") ++
  mkField "md5sum" (List.replicate 31 97) ++ mkField "message_definition" []

/-- A valid `Connection` secondary header with no `latching` field. -/
def connSecondaryNoLatching : List Nat :=
  mkField "topic" (asciiBytes "/a") ++ mkField "type" (asciiBytes "t") ++
  mkField "md5sum" (List.replicate 32 97) ++ mkField "message_definition" []

/-- A decompression backend whose bzip2 decoder returns 99 zero bytes
whatever its input, used against a chunk declaring `size = 100`. -/
def d99 : Decomp := ⟨fun _ => .ok (List.replicate 99 0), fun _ => .error "unused"⟩

instance {ε α : Type} [DecidableEq ε] [DecidableEq α] : DecidableEq (Except ε α) :=
  fun a b =>
    match a, b with
    | .ok x, .ok y =>
      if h : x = y then isTrue (by rw [h])
      else isFalse (by intro hh; injection hh; contradiction)
    | .error x, .error y =>
      if h : x = y then isTrue (by rw [h])
      else isFalse (by intro hh; injection hh; contradiction)
    | .ok _, .error _ => isFalse (by intro hh; exact Except.noConfusion hh)
    | .error _, .ok _ => isFalse (by intro hh; exact Except.noConfusion hh)

/-! ## C1 -/

/-- C1, counterexample: `minimalBagFile` opens successfully and the
returned start position is 4109, not 4096 as claimed. -/
theorem c1_counterexample :
    parse_bag_header minimalBagFile = .ok (4109, ⟨4109, 0, 0⟩) ∧ (4109 : Nat) ≠ 4096 :=
  ⟨rfl, by decide⟩

/-- C1 (amended): for every bag successfully opened, the recorded
start position — where `chunk_records()` begins iterating — equals
`VERSION_LEN + ROSBAG_HEADER_SIZE = 13 + 4096 = 4109`: the 4096-byte
padded footprint of the bag-header record excludes the 13-byte magic
(and `parse_bag_header` returns this constant without verifying the
record's actual on-disk size). -/
theorem c1_start_pos (file : List Nat) (r : Nat × BagHeader)
    (h : parse_bag_header file = .ok r) :
    r.1 = VERSION_LEN + ROSBAG_HEADER_SIZE ∧ r.1 = 4109 := by
  unfold parse_bag_header at h
  repeat' split at h
  all_goals first
    | exact Except.noConfusion h
    | (injection h with h'; subst h'; exact ⟨rfl, rfl⟩)

/-- C1 witness: the amended theorem applied to `minimalBagFile`. -/
theorem c1_witness :
    ((4109 : Nat), (⟨4109, 0, 0⟩ : BagHeader)).1 = VERSION_LEN + ROSBAG_HEADER_SIZE ∧
    ((4109 : Nat), (⟨4109, 0, 0⟩ : BagHeader)).1 = 4109 :=
  c1_start_pos minimalBagFile (4109, ⟨4109, 0, 0⟩) rfl

/-! ## C3 -/

/-- C3 (confirmed): for both section iterators, `seek(pos)` returns
`OutOfBounds` when `pos < offset` or `pos > offset + len`, succeeds
for every `offset ≤ pos ≤ offset + len`, and after a seek to exactly
`offset + len` the next call to `next()` returns `None`. -/
theorem c3_seek_bounds :
    (∀ (it : ChunkRecordsIterator) (pos : Nat),
        (pos < it.offset → it.seek pos = .error (.ros .OutOfBounds))
      ∧ (it.offset + it.cursor.len < pos → it.seek pos = .error (.ros .OutOfBounds))
      ∧ (it.offset ≤ pos → pos ≤ it.offset + it.cursor.len →
          it.seek pos = .ok ⟨⟨it.cursor.data, pos - it.offset⟩, it.offset⟩))
  ∧ (∀ (d : Decomp) (it it' : ChunkRecordsIterator),
        it.seek (it.offset + it.cursor.len) = .ok it' → (it'.next d).1 = none)
  ∧ (∀ (it : IndexRecordsIterator) (pos : Nat),
        (pos < it.offset → it.seek pos = .error (.ros .OutOfBounds))
      ∧ (it.offset + it.cursor.len < pos → it.seek pos = .error (.ros .OutOfBounds))
      ∧ (it.offset ≤ pos → pos ≤ it.offset + it.cursor.len →
          it.seek pos = .ok ⟨⟨it.cursor.data, pos - it.offset⟩, it.offset⟩))
  ∧ (∀ (d : Decomp) (it it' : IndexRecordsIterator),
        it.seek (it.offset + it.cursor.len) = .ok it' → (it'.next d).1 = none) := by
  refine ⟨fun it pos => ⟨fun hlt => ?_, fun hgt => ?_, fun h1 h2 => ?_⟩,
          fun d it it' h => ?_,
          fun it pos => ⟨fun hlt => ?_, fun hgt => ?_, fun h1 h2 => ?_⟩,
          fun d it it' h => ?_⟩
  · simp only [ChunkRecordsIterator.seek, if_pos hlt]
  · rw [ChunkRecordsIterator.seek, if_neg (by omega), Cursor.seek,
        if_pos (by simp only [Cursor.len] at hgt ⊢; omega)]
  · rw [ChunkRecordsIterator.seek, if_neg (by omega), Cursor.seek,
        if_neg (by simp only [Cursor.len] at h2 ⊢; omega)]
  · rw [ChunkRecordsIterator.seek, if_neg (by omega), Cursor.seek,
        if_neg (by simp only [Cursor.len]; omega)] at h
    injection h with h
    subst h
    simp only [ChunkRecordsIterator.next, Cursor.left, Cursor.len]
    rw [if_pos (by omega)]
  · simp only [IndexRecordsIterator.seek, if_pos hlt]
  · rw [IndexRecordsIterator.seek, if_neg (by omega), Cursor.seek,
        if_pos (by simp only [Cursor.len] at hgt ⊢; omega)]
  · rw [IndexRecordsIterator.seek, if_neg (by omega), Cursor.seek,
        if_neg (by simp only [Cursor.len] at h2 ⊢; omega)]
  · rw [IndexRecordsIterator.seek, if_neg (by omega), Cursor.seek,
        if_neg (by simp only [Cursor.len]; omega)] at h
    injection h with h
    subst h
    simp only [IndexRecordsIterator.next, Cursor.left, Cursor.len]
    rw [if_pos (by omega)]

/-- C3 witness: the bounds protocol at a concrete chunk-section
iterator (`offset = 100`, `len = 8`). -/
theorem c3_witness :
    ((ChunkRecordsIterator.mk (Cursor.new (List.replicate 8 0)) 100).seek 99
        = .error (.ros .OutOfBounds))
  ∧ ((ChunkRecordsIterator.mk (Cursor.new (List.replicate 8 0)) 100).seek 109
        = .error (.ros .OutOfBounds))
  ∧ ((ChunkRecordsIterator.mk (Cursor.new (List.replicate 8 0)) 100).seek 108
        = .ok ⟨⟨List.replicate 8 0, 8⟩, 100⟩)
  ∧ ((ChunkRecordsIterator.next noDecomp ⟨⟨List.replicate 8 0, 8⟩, 100⟩).1 = none) :=
  ⟨(c3_seek_bounds.1 ⟨Cursor.new (List.replicate 8 0), 100⟩ 99).1 (by decide),
   (c3_seek_bounds.1 ⟨Cursor.new (List.replicate 8 0), 100⟩ 109).2.1 (by decide),
   (c3_seek_bounds.1 ⟨Cursor.new (List.replicate 8 0), 100⟩ 108).2.2 (by decide) (by decide),
   c3_seek_bounds.2.1 noDecomp ⟨Cursor.new (List.replicate 8 0), 100⟩
     ⟨⟨List.replicate 8 0, 8⟩, 100⟩ rfl⟩

/-! ## C4 -/

/-- C4 (confirmed): with `compression = none` the decompressor is the
identity on the blob; for every compression mode a decompressed output
whose length differs from the declared `size` makes `Chunk::read_data`
fail `InvalidRecord`; and every successfully parsed `Chunk` stores a
buffer of exactly `size` bytes. -/
theorem c4_chunk_size :
    (∀ (d : Decomp) (data : List Nat) (sz : Option Nat),
        Compression.nocompression.decompress d data sz = .ok data)
  ∧ (∀ (d : Decomp) (c c₁ : Cursor) (comp : Compression) (size : Nat)
        (blob out : List Nat),
        c.next_chunk = .ok (blob, c₁) →
        comp.decompress d blob (some size) = .ok out →
        out.length ≠ size →
        Chunk.read_data d c ⟨some comp, some size⟩ = .error (.ros .InvalidRecord))
  ∧ (∀ (d : Decomp) (c c₁ : Cursor) (h : ChunkHeader) (v : Chunk) (size : Nat),
        h.size = some size →
        Chunk.read_data d c h = .ok (v, c₁) →
        v.data.length = size) := by
  refine ⟨fun d data sz => rfl, fun d c c₁ comp size blob out hnc hdec hne => ?_,
          fun d c c₁ h v size hsize hok => ?_⟩
  · simp only [Chunk.read_data, hnc, hdec, if_pos hne]
  · obtain ⟨hco, hsz⟩ := h
    cases hco with
    | none => exact Except.noConfusion hok
    | some comp =>
      cases hsz with
      | none => exact Except.noConfusion hok
      | some size' =>
        have hsz' : size' = size := by
          simp only [ChunkHeader.size] at hsize
          injection hsize
        subst hsz'
        simp only [Chunk.read_data] at hok
        split at hok
        · exact Except.noConfusion hok
        · split at hok
          · exact Except.noConfusion hok
          · split at hok
            · exact Except.noConfusion hok
            · rename_i hlen
              injection hok with hok
              injection hok with h1 h2
              subst h1
              simpa using hlen

/-- C4 witness: a bzip2 chunk declaring `size = 100` whose decoder
yields 99 bytes fails `InvalidRecord`. -/
theorem c4_witness :
    Chunk.read_data d99 (Cursor.new (u32le 0)) ⟨some .bzip2, some 100⟩
      = .error (.ros .InvalidRecord) :=
  c4_chunk_size.2.1 d99 (Cursor.new (u32le 0)) ⟨u32le 0, 4⟩ .bzip2 100 []
    (List.replicate 99 0) rfl rfl (by decide)

/-! ## C5 -/

/-- C5 (confirmed): with all required header fields present and
`ver = 1`, `IndexData::read_data` fails `InvalidRecord` exactly when
`data_len % 12 ≠ 0` or `data_len / 12 ≠ count`; on success the stored
entry buffer holds exactly `data_len` bytes and the cursor advances by
exactly `data_len` past the length prefix. -/
theorem c5_index_data_size_check (c c₁ : Cursor) (conn count n : Nat)
    (hu : c.next_u32 = .ok (n, c₁)) :
    ((IndexData.read_data c ⟨some 1, some conn, some count⟩
        = .error (.ros .InvalidRecord)) ↔ (n % 12 ≠ 0 ∨ n / 12 ≠ count))
  ∧ (∀ (v : IndexData) (c₂ : Cursor),
      IndexData.read_data c ⟨some 1, some conn, some count⟩ = .ok (v, c₂) →
      v.data.length = n ∧ c₂.pos = c₁.pos + n) := by
  constructor
  · unfold IndexData.read_data
    simp only [hu, if_neg (by decide : ¬(1 ≠ 1))]
    by_cases hbad : n % 12 ≠ 0 ∨ n / 12 ≠ count
    · rw [if_pos hbad]
      exact ⟨fun _ => hbad, fun _ => rfl⟩
    · rw [if_neg hbad]
      constructor
      · intro h
        exfalso
        cases hb : c₁.next_bytes n with
        | error e =>
          rw [hb] at h
          unfold Cursor.next_bytes at hb
          split at hb
          · injection hb with hb
            subst hb
            injection h with h
            injection h with h
            exact RosError.noConfusion h
          · exact Except.noConfusion hb
        | ok p =>
          rw [hb] at h
          exact Except.noConfusion h
      · intro hb'
        exact absurd hb' hbad
  · intro v c₂ h
    unfold IndexData.read_data at h
    simp only [hu, if_neg (by decide : ¬(1 ≠ 1))] at h
    split at h
    · exact Except.noConfusion h
    · cases hb : c₁.next_bytes n with
      | error e =>
        rw [hb] at h
        exact Except.noConfusion h
      | ok p =>
        obtain ⟨data, c₂'⟩ := p
        rw [hb] at h
        injection h with h
        injection h with h1 h2
        subst h2
        have hs := Cursor.next_bytes_ok_shape c₁ c₂' n data hb
        subst h1
        exact ⟨hs.1, hs.2.2⟩

/-- C5 witness: the spec's concrete scenario, `count = 3` with
`data_len = 32`, fails `InvalidRecord`. -/
theorem c5_witness :
    (IndexData.read_data (Cursor.new (u32le 32)) ⟨some 1, some 7, some 3⟩
        = .error (.ros .InvalidRecord)) ↔ (32 % 12 ≠ 0 ∨ 32 / 12 ≠ 3) :=
  (c5_index_data_size_check (Cursor.new (u32le 32)) ⟨u32le 32, 4⟩ 7 3 32 rfl).1

/-! ## C7 -/

/-- C7, counterexample: a properly framed field whose name byte `0xFF`
is not valid UTF-8 makes `read_record` fail with the propagated UTF-8
conversion error, not with kind `InvalidHeader` as claimed. -/
theorem c7_counterexample :
    read_record [2, 0, 0, 0, 255, 61] = .error .utf8Error ∧
    Err.utf8Error ≠ .ros .InvalidHeader :=
  ⟨rfl, by decide⟩

/-- C7 (amended): the field iterator terminates on an exhausted buffer
and otherwise propagates `read_record`, which reads a 4-byte
little-endian length and splits the field on the first `'='`; a
truncated field (fewer than 4 bytes for the prefix, or a declared
length beyond the remaining bytes) and a missing `'='` fail
`InvalidHeader`, while a name that is not valid UTF-8 fails with the
propagated UTF-8 conversion error rather than `InvalidHeader`. -/
theorem c7_field_iteration :
    (fieldIterNext [] = none)
  ∧ (∀ (buf : List Nat) (e : Err), buf ≠ [] → read_record buf = .error e →
      fieldIterNext buf = some (.error e, buf))
  ∧ (∀ (buf name val leftover : List Nat), buf ≠ [] →
      read_record buf = .ok (name, val, leftover) →
      fieldIterNext buf = some (.ok (name, val), leftover))
  ∧ (∀ (buf : List Nat), buf.length < 4 →
      read_record buf = .error (.ros .InvalidHeader))
  ∧ (∀ (buf : List Nat), 4 ≤ buf.length →
      (buf.drop 4).length < leBytes (buf.take 4) →
      read_record buf = .error (.ros .InvalidHeader))
  ∧ (∀ (buf : List Nat) (n fld : List Nat) (m : Nat), 4 ≤ buf.length →
      m = leBytes (buf.take 4) → n = buf.drop 4 → fld = n.take m →
      m ≤ n.length → findEq fld = none →
      read_record buf = .error (.ros .InvalidHeader))
  ∧ (∀ (buf : List Nat) (n fld : List Nat) (m delim : Nat), 4 ≤ buf.length →
      m = leBytes (buf.take 4) → n = buf.drop 4 → fld = n.take m →
      m ≤ n.length → findEq fld = some delim →
      validUtf8 (fld.take delim) = true →
      read_record buf = .ok (fld.take delim, fld.drop (delim + 1), n.drop m))
  ∧ (∀ (buf : List Nat) (n fld : List Nat) (m delim : Nat), 4 ≤ buf.length →
      m = leBytes (buf.take 4) → n = buf.drop 4 → fld = n.take m →
      m ≤ n.length → findEq fld = some delim →
      validUtf8 (fld.take delim) = false →
      read_record buf = .error .utf8Error) := by
  refine ⟨rfl, fun buf e hne hr => ?_, fun buf name val leftover hne hr => ?_,
          fun buf hlt => ?_, fun buf h4 hlong => ?_,
          fun buf n fld m h4 hm hn hfld hle hfind => ?_,
          fun buf n fld m delim h4 hm hn hfld hle hfind hutf => ?_,
          fun buf n fld m delim h4 hm hn hfld hle hfind hutf => ?_⟩
  · cases buf with
    | nil => exact absurd rfl hne
    | cons b rest => simp [fieldIterNext, hr]
  · cases buf with
    | nil => exact absurd rfl hne
    | cons b rest => simp [fieldIterNext, hr]
  · simp only [read_record, if_pos hlt]
  · simp only [read_record, if_neg (Nat.not_lt.mpr h4), if_pos hlong]
  · subst hm hn hfld
    simp only [read_record, if_neg (Nat.not_lt.mpr h4),
               if_neg (Nat.not_lt.mpr hle), hfind]
  · subst hm hn hfld
    simp only [read_record, if_neg (Nat.not_lt.mpr h4),
               if_neg (Nat.not_lt.mpr hle), hfind, hutf, if_true]
  · subst hm hn hfld
    simp only [read_record, if_neg (Nat.not_lt.mpr h4),
               if_neg (Nat.not_lt.mpr hle), hfind, hutf, Bool.false_eq_true,
               if_false]

/-- C7 witness: the four field-framing behaviors at concrete buffers —
a 3-byte buffer (short length prefix), a declared length of 5 with
two bytes remaining, a field without `'='`, and the well-formed field
`op=0x03`. -/
theorem c7_witness :
    fieldIterNext [1, 0, 0] = some (.error (.ros .InvalidHeader), [1, 0, 0]) ∧
    read_record [5, 0, 0, 0, 97, 61] = .error (.ros .InvalidHeader) ∧
    read_record [3, 0, 0, 0, 97, 98, 99] = .error (.ros .InvalidHeader) ∧
    read_record [4, 0, 0, 0, 111, 112, 61, 3] = .ok ([111, 112], [3], []) :=
  ⟨c7_field_iteration.2.1 [1, 0, 0] (.ros .InvalidHeader) (by decide)
     (c7_field_iteration.2.2.2.1 [1, 0, 0] (by decide)),
   c7_field_iteration.2.2.2.2.1 [5, 0, 0, 0, 97, 61] (by decide) (by decide),
   c7_field_iteration.2.2.2.2.2.1 [3, 0, 0, 0, 97, 98, 99] [97, 98, 99] [97, 98, 99] 3
     (by decide) (by decide) (by decide) (by decide) (by decide) (by decide),
   c7_field_iteration.2.2.2.2.2.2.1 [4, 0, 0, 0, 111, 112, 61, 3] [111, 112, 61, 3]
     [111, 112, 61, 3] 4 2 (by decide) (by decide) (by decide) (by decide)
     (by decide) (by decide) (by decide)⟩

/-! ## C2 -/

/-- C2 (confirmed): whenever the generic reader successfully parses a
record whose variant lies outside the iterator's allowed set, `next()`
returns the section's unexpected-record error carrying the record's
kind name: `Chunk`/`IndexData` for the chunk section, `IndexData`/
`Connection`/`ChunkInfo` for the index section, and `MessageData`/
`Connection` inside a chunk. -/
theorem c2_unexpected_variant :
    (∀ (d : Decomp) (it : ChunkRecordsIterator) (r : Record) (c' : Cursor),
        it.cursor.left ≠ 0 →
        Record.next_record d it.cursor = .ok (r, c') →
        r.get_type ∉ (["Chunk", "IndexData"] : List String) →
        (it.next d).1 = some (.error (.ros (.UnexpectedChunkSectionRecord r.get_type))))
  ∧ (∀ (d : Decomp) (it : IndexRecordsIterator) (r : Record) (c' : Cursor),
        it.cursor.left ≠ 0 →
        Record.next_record d it.cursor = .ok (r, c') →
        r.get_type ∉ (["IndexData", "Connection", "ChunkInfo"] : List String) →
        (it.next d).1 = some (.error (.ros (.UnexpectedIndexSectionRecord r.get_type))))
  ∧ (∀ (d : Decomp) (it : MessageRecordsIterator) (r : Record) (c' : Cursor),
        it.cursor.left ≠ 0 →
        Record.next_record d it.cursor = .ok (r, c') →
        r.get_type ∉ (["MessageData", "Connection"] : List String) →
        (it.next d).1 = some (.error (.ros (.UnexpectedMessageRecord r.get_type)))) := by
  refine ⟨fun d it r c' hleft hnext hnotin => ?_,
          fun d it r c' hleft hnext hnotin => ?_,
          fun d it r c' hleft hnext hnotin => ?_⟩
  · cases r with
    | Chunk v => exact absurd (by simp [Record.get_type]) hnotin
    | IndexData v => exact absurd (by simp [Record.get_type]) hnotin
    | Connection v => simp [ChunkRecordsIterator.next, if_neg hleft, hnext]
    | MessageData v => simp [ChunkRecordsIterator.next, if_neg hleft, hnext]
    | ChunkInfo v => simp [ChunkRecordsIterator.next, if_neg hleft, hnext]
  · cases r with
    | IndexData v => exact absurd (by simp [Record.get_type]) hnotin
    | Connection v => exact absurd (by simp [Record.get_type]) hnotin
    | ChunkInfo v => exact absurd (by simp [Record.get_type]) hnotin
    | Chunk v => simp [IndexRecordsIterator.next, if_neg hleft, hnext]
    | MessageData v => simp [IndexRecordsIterator.next, if_neg hleft, hnext]
  · cases r with
    | MessageData v => exact absurd (by simp [Record.get_type]) hnotin
    | Connection v => exact absurd (by simp [Record.get_type]) hnotin
    | Chunk v => simp [MessageRecordsIterator.next, if_neg hleft, hnext]
    | IndexData v => simp [MessageRecordsIterator.next, if_neg hleft, hnext]
    | ChunkInfo v => simp [MessageRecordsIterator.next, if_neg hleft, hnext]

/-- C2 witness: the spec's scenario and two more — a `ChunkInfo`
record in the chunk section, a `MessageData` record in the index
section, and an `IndexData` record inside a chunk — each yielding the
matching unexpected-record error with the kind name. -/
theorem c2_witness :
    ((ChunkRecordsIterator.next noDecomp ⟨Cursor.new chunkInfoRecordBytes, 4109⟩).1
        = some (.error (.ros (.UnexpectedChunkSectionRecord "ChunkInfo"))))
  ∧ ((IndexRecordsIterator.next noDecomp ⟨Cursor.new messageDataRecordBytes, 4109⟩).1
        = some (.error (.ros (.UnexpectedIndexSectionRecord "MessageData"))))
  ∧ ((MessageRecordsIterator.next noDecomp ⟨Cursor.new indexDataRecordBytes⟩).1
        = some (.error (.ros (.UnexpectedMessageRecord "IndexData")))) :=
  ⟨c2_unexpected_variant.1 noDecomp ⟨Cursor.new chunkInfoRecordBytes, 4109⟩
     (.ChunkInfo ⟨1, 0, 0, 0, []⟩) ⟨chunkInfoRecordBytes, 108⟩
     (by decide) rfl (by decide),
   c2_unexpected_variant.2.1 noDecomp ⟨Cursor.new messageDataRecordBytes, 4109⟩
     (.MessageData ⟨7, 0, [42, 0, 0, 0]⟩) ⟨messageDataRecordBytes, 50⟩
     (by decide) rfl (by decide),
   c2_unexpected_variant.2.2 noDecomp ⟨Cursor.new indexDataRecordBytes⟩
     (.IndexData ⟨1, 7, []⟩) ⟨indexDataRecordBytes, 55⟩
     (by decide) rfl (by decide)⟩

/-! ## C10 -/

/-- A cursor holding exactly `12 * k` remaining bytes yields exactly
`k` index entries and never reaches the panic branch. -/
theorem indexEntriesRun_of_left (k : Nat) :
    ∀ (fuel : Nat) (c : Cursor), c.left = 12 * k → k ≤ fuel →
      ∃ l, indexEntriesRun fuel c = some l ∧ l.length = k := by
  induction k with
  | zero =>
    intro fuel c hleft _
    refine ⟨[], ?_, rfl⟩
    unfold indexEntriesRun indexEntriesNext
    rw [if_pos (by omega)]
  | succ k ih =>
    intro fuel c hleft hfuel
    simp only [Cursor.left, Cursor.len] at hleft
    have h1 := Cursor.next_u32_of_le c (by simp only [Cursor.len]; omega)
    have h2 := Cursor.next_u32_of_le ⟨c.data, c.pos + 4⟩
      (by simp only [Cursor.len]; omega)
    have h3 := Cursor.next_u32_of_le ⟨c.data, c.pos + 4 + 4⟩
      (by simp only [Cursor.len]; omega)
    have ht : c.next_time
        = .ok (1000000000 * leBytes ((c.data.drop c.pos).take 4)
                 + leBytes ((c.data.drop (c.pos + 4)).take 4),
               ⟨c.data, c.pos + 4 + 4⟩) := by
      simp only [Cursor.next_time, h1, h2]
    have hnext : indexEntriesNext c
        = .yield (⟨1000000000 * leBytes ((c.data.drop c.pos).take 4)
                     + leBytes ((c.data.drop (c.pos + 4)).take 4),
                   leBytes ((c.data.drop (c.pos + 4 + 4)).take 4)⟩,
                  ⟨c.data, c.pos + 4 + 4 + 4⟩) := by
      unfold indexEntriesNext
      rw [if_neg (by simp only [Cursor.left, Cursor.len]; omega),
          if_neg (by simp only [Cursor.left, Cursor.len]; omega)]
      simp only [ht, h3]
    cases fuel with
    | zero => omega
    | succ fuel' =>
      obtain ⟨l, hl, hlen⟩ := ih fuel' ⟨c.data, c.pos + 4 + 4 + 4⟩
        (by simp only [Cursor.left, Cursor.len]; omega) (by omega)
      refine ⟨⟨1000000000 * leBytes ((c.data.drop c.pos).take 4)
                 + leBytes ((c.data.drop (c.pos + 4)).take 4),
               leBytes ((c.data.drop (c.pos + 4 + 4)).take 4)⟩ :: l, ?_,
              by simp [hlen]⟩
      unfold indexEntriesRun
      rw [hnext]
      simp only [hl, Option.map]

/-- A cursor holding exactly `8 * k` remaining bytes yields exactly
`k` chunk-info entries and never reaches the panic branch. -/
theorem chunkInfoEntriesRun_of_left (k : Nat) :
    ∀ (fuel : Nat) (c : Cursor), c.left = 8 * k → k ≤ fuel →
      ∃ l, chunkInfoEntriesRun fuel c = some l ∧ l.length = k := by
  induction k with
  | zero =>
    intro fuel c hleft _
    refine ⟨[], ?_, rfl⟩
    unfold chunkInfoEntriesRun chunkInfoEntriesNext
    rw [if_pos (by omega)]
  | succ k ih =>
    intro fuel c hleft hfuel
    simp only [Cursor.left, Cursor.len] at hleft
    have h1 := Cursor.next_u32_of_le c (by simp only [Cursor.len]; omega)
    have h2 := Cursor.next_u32_of_le ⟨c.data, c.pos + 4⟩
      (by simp only [Cursor.len]; omega)
    have hnext : chunkInfoEntriesNext c
        = .yield (⟨leBytes ((c.data.drop c.pos).take 4),
                   leBytes ((c.data.drop (c.pos + 4)).take 4)⟩,
                  ⟨c.data, c.pos + 4 + 4⟩) := by
      unfold chunkInfoEntriesNext
      rw [if_neg (by simp only [Cursor.left, Cursor.len]; omega),
          if_neg (by simp only [Cursor.left, Cursor.len]; omega)]
      simp only [h1, h2]
    cases fuel with
    | zero => omega
    | succ fuel' =>
      obtain ⟨l, hl, hlen⟩ := ih fuel' ⟨c.data, c.pos + 4 + 4⟩
        (by simp only [Cursor.left, Cursor.len]; omega) (by omega)
      refine ⟨⟨leBytes ((c.data.drop c.pos).take 4),
               leBytes ((c.data.drop (c.pos + 4)).take 4)⟩ :: l, ?_,
              by simp [hlen]⟩
      unfold chunkInfoEntriesRun
      rw [hnext]
      simp only [hl, Option.map]

/-- C10 (confirmed): every parsed `IndexData` has an entry buffer
whose length is a multiple of 12 (8 for `ChunkInfo`); its `entries()`
iterator is total — the panic branch is never reached — and yields
exactly `count = data_len / entry-size` entries before `None`. -/
theorem c10_entries_total :
    (∀ (c c' : Cursor) (h : IndexDataHeader) (v : IndexData),
        IndexData.read_data c h = .ok (v, c') →
        v.data.length % 12 = 0 ∧
        ∃ l, v.entriesList = some l ∧ l.length = v.data.length / 12 ∧
             h.count = some l.length)
  ∧ (∀ (c c' : Cursor) (h : ChunkInfoHeader) (v : ChunkInfo),
        ChunkInfo.read_data c h = .ok (v, c') →
        v.data.length % 8 = 0 ∧
        ∃ l, v.entriesList = some l ∧ l.length = v.data.length / 8 ∧
             h.count = some l.length) := by
  constructor
  · intro c c' h v hok
    unfold IndexData.read_data at hok
    repeat' split at hok
    all_goals try exact Except.noConfusion hok
    rename_i ver conn_id count hver hconn hcount hver1 p n c₁ hn hbad q data c₂ hb
    rw [not_or] at hbad
    obtain ⟨hmod, hdiv⟩ := hbad
    rw [not_not] at hmod hdiv
    injection hok with hok
    injection hok with hok1 hok2
    subst hok1
    have hdl : data.length = n := (Cursor.next_bytes_ok_shape c₁ c₂ n data hb).1
    refine ⟨by simp only [hdl]; exact hmod, ?_⟩
    have hrun := indexEntriesRun_of_left (n / 12) data.length (Cursor.new data)
      (by simp only [Cursor.left, Cursor.len, Cursor.new]; omega)
      (by omega)
    obtain ⟨l, hl, hllen⟩ := hrun
    refine ⟨l, hl, by simp only [hdl, hllen], ?_⟩
    rw [hcount, hllen, hdiv]
  · intro c c' h v hok
    unfold ChunkInfo.read_data at hok
    repeat' split at hok
    all_goals try exact Except.noConfusion hok
    rename_i ver chunk_pos start_time end_time count hver hcp hst het hcount hver1
      p n c₁ hn hbad q data c₂ hb
    rw [not_or] at hbad
    obtain ⟨hmod, hdiv⟩ := hbad
    rw [not_not] at hmod hdiv
    injection hok with hok
    injection hok with hok1 hok2
    subst hok1
    have hdl : data.length = n := (Cursor.next_bytes_ok_shape c₁ c₂ n data hb).1
    refine ⟨by simp only [hdl]; exact hmod, ?_⟩
    have hrun := chunkInfoEntriesRun_of_left (n / 8) data.length (Cursor.new data)
      (by simp only [Cursor.left, Cursor.len, Cursor.new]; omega)
      (by omega)
    obtain ⟨l, hl, hllen⟩ := hrun
    refine ⟨l, hl, by simp only [hdl, hllen], ?_⟩
    rw [hcount, hllen, hdiv]

/-- C10 witness: a parsed `IndexData` holding one 12-byte entry and a
parsed `ChunkInfo` holding one 8-byte entry, each yielding exactly one
entry. -/
theorem c10_witness :
    ((⟨1, 5, List.replicate 12 0⟩ : IndexData).data.length % 12 = 0 ∧
      ∃ l, (⟨1, 5, List.replicate 12 0⟩ : IndexData).entriesList = some l ∧
           l.length = (⟨1, 5, List.replicate 12 0⟩ : IndexData).data.length / 12 ∧
           (⟨some 1, some 5, some 1⟩ : IndexDataHeader).count = some l.length)
  ∧ ((⟨1, 2, 3, 4, List.replicate 8 0⟩ : ChunkInfo).data.length % 8 = 0 ∧
      ∃ l, (⟨1, 2, 3, 4, List.replicate 8 0⟩ : ChunkInfo).entriesList = some l ∧
           l.length = (⟨1, 2, 3, 4, List.replicate 8 0⟩ : ChunkInfo).data.length / 8 ∧
           (⟨some 1, some 2, some 3, some 4, some 1⟩ : ChunkInfoHeader).count
             = some l.length) :=
  ⟨c10_entries_total.1 (Cursor.new (u32le 12 ++ List.replicate 12 0))
     ⟨u32le 12 ++ List.replicate 12 0, 16⟩ ⟨some 1, some 5, some 1⟩
     ⟨1, 5, List.replicate 12 0⟩ (by rfl),
   c10_entries_total.2 (Cursor.new (u32le 8 ++ List.replicate 8 0))
     ⟨u32le 8 ++ List.replicate 8 0, 12⟩ ⟨some 1, some 2, some 3, some 4, some 1⟩
     ⟨1, 2, 3, 4, List.replicate 8 0⟩ (by rfl)⟩

/-! ## C6 -/

/-- Number of fields of a decoded field list bearing a given name. -/
def countName : List (List Nat × List Nat) → String → Nat
  | [], _ => 0
  | (name, _) :: rest, s => countName rest s + (if name = asciiBytes s then 1 else 0)

/-- 1 when the optional field has been assigned, else 0. -/
def optCount : Option Nat → Nat
  | none => 0
  | some _ => 1

theorem set_field_u64_error_kind (f : Option Nat) (val : List Nat) (e : Err)
    (h : set_field_u64 f val = .error e) : e = .ros .InvalidHeader := by
  unfold set_field_u64 at h
  split at h
  · injection h with h; exact h.symm
  · exact Except.noConfusion h

theorem set_field_u32_error_kind (f : Option Nat) (val : List Nat) (e : Err)
    (h : set_field_u32 f val = .error e) : e = .ros .InvalidHeader := by
  unfold set_field_u32 at h
  split at h
  · injection h with h; exact h.symm
  · exact Except.noConfusion h

theorem set_field_u64_ok_shape (f f' : Option Nat) (val : List Nat)
    (h : set_field_u64 f val = .ok f') : f = none ∧ f' = some (leBytes val) := by
  unfold set_field_u64 at h
  split at h
  · exact Except.noConfusion h
  · rename_i hc
    rw [not_or] at hc
    injection h with h
    refine ⟨?_, h.symm⟩
    cases hf : f
    · rfl
    · exact absurd (by rw [hf]; rfl) hc.2

theorem set_field_u32_ok_shape (f f' : Option Nat) (val : List Nat)
    (h : set_field_u32 f val = .ok f') : f = none ∧ f' = some (leBytes val) := by
  unfold set_field_u32 at h
  split at h
  · exact Except.noConfusion h
  · rename_i hc
    rw [not_or] at hc
    injection h with h
    refine ⟨?_, h.symm⟩
    cases hf : f
    · rfl
    · exact absurd (by rw [hf]; rfl) hc.2

/-- Any error produced by one step of `parse_bag_header`'s field loop
is `InvalidHeader`, provided an `op` field carries the value `0x03`. -/
theorem bagStep_error_kind (s : BagFieldState) (name val : List Nat) (e : Err)
    (hop : name = asciiBytes "op" → val = [3])
    (h : bagStep s name val = .error e) : e = .ros .InvalidHeader := by
  unfold bagStep at h
  by_cases h1 : name = asciiBytes "op"
  · rw [if_pos h1, hop h1] at h
    exact Except.noConfusion h
  · rw [if_neg h1] at h
    by_cases h2 : name = asciiBytes "index_pos"
    · rw [if_pos h2] at h
      cases hsf : set_field_u64 s.index_pos val with
      | error e' =>
        rw [hsf] at h
        injection h with h
        subst h
        exact set_field_u64_error_kind _ _ _ hsf
      | ok f => rw [hsf] at h; exact Except.noConfusion h
    · rw [if_neg h2] at h
      by_cases h3 : name = asciiBytes "conn_count"
      · rw [if_pos h3] at h
        cases hsf : set_field_u32 s.conn_count val with
        | error e' =>
          rw [hsf] at h
          injection h with h
          subst h
          exact set_field_u32_error_kind _ _ _ hsf
        | ok f => rw [hsf] at h; exact Except.noConfusion h
      · rw [if_neg h3] at h
        by_cases h4 : name = asciiBytes "chunk_count"
        · rw [if_pos h4] at h
          cases hsf : set_field_u32 s.chunk_count val with
          | error e' =>
            rw [hsf] at h
            injection h with h
            subst h
            exact set_field_u32_error_kind _ _ _ hsf
          | ok f => rw [hsf] at h; exact Except.noConfusion h
        · rw [if_neg h4] at h
          exact Except.noConfusion h

/-- Effect of one successful step of the bag-header field loop on the
assignment counters and the `op` flag. -/
theorem bagStep_ok_effect (s s₁ : BagFieldState) (name val : List Nat)
    (h : bagStep s name val = .ok s₁) :
    optCount s₁.index_pos = optCount s.index_pos
      + (if name = asciiBytes "index_pos" then 1 else 0) ∧
    optCount s₁.conn_count = optCount s.conn_count
      + (if name = asciiBytes "conn_count" then 1 else 0) ∧
    optCount s₁.chunk_count = optCount s.chunk_count
      + (if name = asciiBytes "chunk_count" then 1 else 0) ∧
    (s₁.op = true ↔ (s.op = true ∨ name = asciiBytes "op")) := by
  unfold bagStep at h
  by_cases h1 : name = asciiBytes "op"
  · rw [if_pos h1] at h
    cases hco : check_op val 3 with
    | error e => rw [hco] at h; exact Except.noConfusion h
    | ok u =>
      rw [hco] at h
      injection h with h
      subst h
      refine ⟨?_, ?_, ?_, ?_⟩
      · rw [h1, if_neg (by decide : ¬(asciiBytes "op" = asciiBytes "index_pos"))]; rfl
      · rw [h1, if_neg (by decide : ¬(asciiBytes "op" = asciiBytes "conn_count"))]; rfl
      · rw [h1, if_neg (by decide : ¬(asciiBytes "op" = asciiBytes "chunk_count"))]; rfl
      · simp [h1]
  · rw [if_neg h1] at h
    by_cases h2 : name = asciiBytes "index_pos"
    · rw [if_pos h2] at h
      cases hsf : set_field_u64 s.index_pos val with
      | error e => rw [hsf] at h; exact Except.noConfusion h
      | ok f =>
        rw [hsf] at h
        injection h with h
        subst h
        obtain ⟨hnone, hsome⟩ := set_field_u64_ok_shape _ _ _ hsf
        refine ⟨?_, ?_, ?_, ?_⟩
        · rw [if_pos h2, hnone, hsome]; rfl
        · rw [h2, if_neg (by decide : ¬(asciiBytes "index_pos" = asciiBytes "conn_count"))]; rfl
        · rw [h2, if_neg (by decide : ¬(asciiBytes "index_pos" = asciiBytes "chunk_count"))]; rfl
        · simp [h1]
    · rw [if_neg h2] at h
      by_cases h3 : name = asciiBytes "conn_count"
      · rw [if_pos h3] at h
        cases hsf : set_field_u32 s.conn_count val with
        | error e => rw [hsf] at h; exact Except.noConfusion h
        | ok f =>
          rw [hsf] at h
          injection h with h
          subst h
          obtain ⟨hnone, hsome⟩ := set_field_u32_ok_shape _ _ _ hsf
          refine ⟨?_, ?_, ?_, ?_⟩
          · rw [h3, if_neg (by decide : ¬(asciiBytes "conn_count" = asciiBytes "index_pos"))]; rfl
          · rw [if_pos h3, hnone, hsome]; rfl
          · rw [h3, if_neg (by decide : ¬(asciiBytes "conn_count" = asciiBytes "chunk_count"))]; rfl
          · simp [h1]
      · rw [if_neg h3] at h
        by_cases h4 : name = asciiBytes "chunk_count"
        · rw [if_pos h4] at h
          cases hsf : set_field_u32 s.chunk_count val with
          | error e => rw [hsf] at h; exact Except.noConfusion h
          | ok f =>
            rw [hsf] at h
            injection h with h
            subst h
            obtain ⟨hnone, hsome⟩ := set_field_u32_ok_shape _ _ _ hsf
            refine ⟨?_, ?_, ?_, ?_⟩
            · rw [h4, if_neg (by decide : ¬(asciiBytes "chunk_count" = asciiBytes "index_pos"))]; rfl
            · rw [h4, if_neg (by decide : ¬(asciiBytes "chunk_count" = asciiBytes "conn_count"))]; rfl
            · rw [if_pos h4, hnone, hsome]; rfl
            · simp [h1]
        · rw [if_neg h4] at h
          injection h with h
          subst h
          exact ⟨by rw [if_neg h2]; rfl, by rw [if_neg h3]; rfl, by rw [if_neg h4]; rfl, by simp [h1]⟩

/-- Running the bag-header field loop to success adds exactly one
assignment per occurrence of each numeric field name and sets the `op`
flag exactly when an `op` field occurred. -/
theorem bagFold_ok_counts :
    ∀ (l : List (List Nat × List Nat)) (s s' : BagFieldState),
      listFold bagStep s l = .ok s' →
      optCount s'.index_pos = optCount s.index_pos + countName l "index_pos" ∧
      optCount s'.conn_count = optCount s.conn_count + countName l "conn_count" ∧
      optCount s'.chunk_count = optCount s.chunk_count + countName l "chunk_count" ∧
      (s'.op = true ↔ (s.op = true ∨ 1 ≤ countName l "op")) := by
  intro l
  induction l with
  | nil =>
    intro s s' h
    injection h with h
    subst h
    simp [countName]
  | cons x rest ih =>
    intro s s' h
    obtain ⟨name, val⟩ := x
    simp only [listFold] at h
    cases hs : bagStep s name val with
    | error e => rw [hs] at h; exact Except.noConfusion h
    | ok s₁ =>
      rw [hs] at h
      obtain ⟨e1, e2, e3, e4⟩ := bagStep_ok_effect s s₁ name val hs
      obtain ⟨i1, i2, i3, i4⟩ := ih s₁ s' h
      refine ⟨?_, ?_, ?_, ?_⟩
      · simp only [countName] at i1 ⊢; omega
      · simp only [countName] at i2 ⊢; omega
      · simp only [countName] at i3 ⊢; omega
      · simp only [countName]
        constructor
        · intro hopflag
          rcases i4.mp hopflag with h' | h'
          · rcases e4.mp h' with h'' | h''
            · exact Or.inl h''
            · right; rw [if_pos h'']; omega
          · right; omega
        · intro hopflag
          apply i4.mpr
          rcases hopflag with h' | h'
          · exact Or.inl (e4.mpr (Or.inl h'))
          · by_cases hn : name = asciiBytes "op"
            · exact Or.inl (e4.mpr (Or.inr hn))
            · right; rw [if_neg hn] at h'; omega

/-- Any error of the whole bag-header field loop is `InvalidHeader`,
provided every `op` field carries the value `0x03`. -/
theorem bagFold_error_kind :
    ∀ (l : List (List Nat × List Nat)) (s : BagFieldState) (e : Err),
      (∀ v, (asciiBytes "op", v) ∈ l → v = [3]) →
      listFold bagStep s l = .error e → e = .ros .InvalidHeader := by
  intro l
  induction l with
  | nil => intro s e _ h; exact Except.noConfusion h
  | cons x rest ih =>
    intro s e hop h
    obtain ⟨name, val⟩ := x
    simp only [listFold] at h
    cases hs : bagStep s name val with
    | error e' =>
      rw [hs] at h
      injection h with h
      subst h
      exact bagStep_error_kind s name val e'
        (fun hn => hop val (by rw [← hn]; exact List.mem_cons_self _ _)) hs
    | ok s₁ =>
      rw [hs] at h
      exact ih s₁ e (fun v hv => hop v (List.mem_cons_of_mem _ hv)) h

/-- C6, counterexample: a bag file whose header carries the `op=0x03`
marker twice (and each numeric field once) is accepted, so duplication
of the `op` marker does not fail with `InvalidHeader` as claimed. -/
theorem c6_counterexample :
    object_read_chunk dupOpBagFile VERSION_LEN = .ok dupOpBagHeaderBlob ∧
    fieldsOf dupOpBagHeaderBlob
      = .ok [(asciiBytes "op", [3]), (asciiBytes "op", [3]),
             (asciiBytes "index_pos", u64le 4109),
             (asciiBytes "conn_count", u32le 0),
             (asciiBytes "chunk_count", u32le 0)] ∧
    countName [(asciiBytes "op", [3]), (asciiBytes "op", [3]),
               (asciiBytes "index_pos", u64le 4109),
               (asciiBytes "conn_count", u32le 0),
               (asciiBytes "chunk_count", u32le 0)] "op" = 2 ∧
    parse_bag_header dupOpBagFile = .ok (4109, ⟨4109, 0, 0⟩) :=
  ⟨rfl, rfl, rfl, rfl⟩

/-- C6 (amended): at open time each of `index_pos`, `conn_count` and
`chunk_count` must appear exactly once and the `op=0x03` marker at
least once: whenever the decoded bag-header fields (all `op`
occurrences carrying `0x03`) have any numeric field absent or
duplicated, or no `op` field at all, `parse_bag_header` fails with
`InvalidHeader`; a duplicated `op` marker, by contrast, is accepted. -/
theorem c6_required_fields (file header : List Nat)
    (l : List (List Nat × List Nat))
    (hmagic : object_read_bytes file 0 VERSION_LEN = .ok versionBytes)
    (hheader : object_read_chunk file VERSION_LEN = .ok header)
    (hfields : fieldsOf header = .ok l)
    (hop : ∀ v, (asciiBytes "op", v) ∈ l → v = [3])
    (hcond : countName l "index_pos" ≠ 1 ∨ countName l "conn_count" ≠ 1 ∨
             countName l "chunk_count" ≠ 1 ∨ countName l "op" = 0) :
    parse_bag_header file = .error (.ros .InvalidHeader) := by
  unfold parse_bag_header
  simp only [hmagic, hheader]
  rw [if_neg (by simp : ¬(versionBytes ≠ versionBytes))]
  rw [foldFields_eq_listFold bagStep header.length header l _ hfields]
  split
  · rename_i e heq
    simp only [bagFold_error_kind l _ e hop heq]
  · rename_i s' heq
    obtain ⟨h1, h2, h3, h4⟩ := bagFold_ok_counts l _ s' heq
    split
    · rename_i ip cc kc hip hcc hkc hopflag
      exfalso
      rw [hip] at h1
      rw [hcc] at h2
      rw [hkc] at h3
      simp only [optCount] at h1 h2 h3
      have h5 : 1 ≤ countName l "op" := by
        rcases h4.mp hopflag with h' | h'
        · exact absurd h' (by simp)
        · exact h'
      rcases hcond with hc | hc | hc | hc <;> omega
    · rfl

/-- C6 witness: a bag file whose header lacks `chunk_count` fails
`InvalidHeader`. -/
theorem c6_witness :
    parse_bag_header
      (versionBytes
        ++ u32le (mkField "op" [3] ++ mkField "index_pos" (u64le 4109)
                  ++ mkField "conn_count" (u32le 0)).length
        ++ (mkField "op" [3] ++ mkField "index_pos" (u64le 4109)
            ++ mkField "conn_count" (u32le 0))
        ++ u32le 0)
      = .error (.ros .InvalidHeader) :=
  c6_required_fields _
    (mkField "op" [3] ++ mkField "index_pos" (u64le 4109)
      ++ mkField "conn_count" (u32le 0))
    [(asciiBytes "op", [3]), (asciiBytes "index_pos", u64le 4109),
     (asciiBytes "conn_count", u32le 0)]
    rfl rfl rfl
    (fun v hv => by
      simp only [List.mem_cons, List.not_mem_nil, or_false, Prod.mk.injEq] at hv
      rcases hv with ⟨_, h⟩ | ⟨hbad, _⟩ | ⟨hbad, _⟩
      · exact h
      · exact absurd hbad (by decide)
      · exact absurd hbad (by decide))
    (by decide)

/-! ## C8 -/

/-- A `md5sum` field whose value is already assigned, not 32 bytes
long, or not lowercase hex makes the secondary-header step fail
`InvalidRecord`. -/
theorem connStep_md5_bad (s : ConnState) (v : List Nat)
    (hbad : s.md5sum.isSome ∨ v.length ≠ 32 ∨ decodeHexLower v = none) :
    connDataStep s (asciiBytes "md5sum") v = .error (.ros .InvalidRecord) := by
  unfold connDataStep
  rw [if_neg (by decide : ¬(asciiBytes "md5sum" = asciiBytes "topic")),
      if_neg (by decide : ¬(asciiBytes "md5sum" = asciiBytes "type")),
      if_pos rfl]
  rcases hbad with hb | hb | hb
  · rw [if_pos (Or.inl hb)]
  · rw [if_pos (Or.inr hb)]
  · by_cases hl : s.md5sum.isSome ∨ v.length ≠ 32
    · rw [if_pos hl]
    · rw [if_neg hl, hb]

/-- C8, counterexample: a `Connection` record whose `md5sum` value is
31 bytes fails with `InvalidRecord`, not `InvalidHeader` as claimed. -/
theorem c8_counterexample :
    Connection.read_data
        (Cursor.new (u32le connSecondaryShortMd5.length ++ connSecondaryShortMd5))
        ⟨some 7, some (asciiBytes "/a")⟩ = .error (.ros .InvalidRecord) ∧
    RosError.InvalidRecord ≠ RosError.InvalidHeader :=
  ⟨rfl, by decide⟩

/-- C8 (amended): for every `Connection` record whose secondary header
reaches a `md5sum` field that is duplicated, not exactly 32 bytes, or
not lowercase hex, parsing fails with error kind `InvalidRecord` (the
source's `InvalidHeader` kind is not used for malformed `md5sum`). -/
theorem c8_md5sum_malformed (c c₁ : Cursor) (id : Nat)
    (st buf v : List Nat) (l₁ l₂ : List (List Nat × List Nat)) (s : ConnState)
    (hnc : c.next_chunk = .ok (buf, c₁))
    (hfields : fieldsOf buf = .ok (l₁ ++ (asciiBytes "md5sum", v) :: l₂))
    (hpre : listFold connDataStep connStateInit l₁ = .ok s)
    (hbad : s.md5sum.isSome ∨ v.length ≠ 32 ∨ decodeHexLower v = none) :
    Connection.read_data c ⟨some id, some st⟩ = .error (.ros .InvalidRecord) := by
  unfold Connection.read_data
  simp only [hnc]
  rw [foldFields_eq_listFold connDataStep buf.length _ _ connStateInit hfields,
      listFold_append connDataStep l₁ _ connStateInit, hpre]
  simp only [listFold, connStep_md5_bad s v hbad]

/-- C8 witness: the amended theorem applied to the concrete record
whose `md5sum` value has 31 bytes. -/
theorem c8_witness :
    Connection.read_data
        (Cursor.new (u32le connSecondaryShortMd5.length ++ connSecondaryShortMd5))
        ⟨some 9, some (asciiBytes "/b")⟩ = .error (.ros .InvalidRecord) :=
  c8_md5sum_malformed
    (Cursor.new (u32le connSecondaryShortMd5.length ++ connSecondaryShortMd5))
    ⟨u32le connSecondaryShortMd5.length ++ connSecondaryShortMd5, 4 + connSecondaryShortMd5.length⟩
    9 (asciiBytes "/b") connSecondaryShortMd5 (List.replicate 31 97)
    [(asciiBytes "topic", asciiBytes "/a"), (asciiBytes "type", asciiBytes "t")]
    [(asciiBytes "message_definition", [])]
    ⟨some (asciiBytes "/a"), some (asciiBytes "t"), none, none, none, false⟩
    (by rfl) (by rfl) (by rfl) (by decide)

/-! ## C9 -/

/-- A successful secondary-header step under a name other than
`latching` leaves the `latching` flag unchanged. -/
theorem connStep_latching_unchanged (s s₁ : ConnState) (name val : List Nat)
    (hn : ¬(name = asciiBytes "latching"))
    (h : connDataStep s name val = .ok s₁) : s₁.latching = s.latching := by
  unfold connDataStep at h
  repeat' split at h
  all_goals first
    | exact Except.noConfusion h
    | exact absurd (by assumption) hn
    | (injection h with h; subst h; rfl)

/-- Running the secondary-header loop over fields containing no
`latching` field leaves the flag at its initial value. -/
theorem connFold_latching_unchanged :
    ∀ (l : List (List Nat × List Nat)) (s s' : ConnState),
      countName l "latching" = 0 →
      listFold connDataStep s l = .ok s' → s'.latching = s.latching := by
  intro l
  induction l with
  | nil =>
    intro s s' _ h
    injection h with h
    subst h
    rfl
  | cons x rest ih =>
    intro s s' hcount h
    obtain ⟨name, val⟩ := x
    simp only [countName] at hcount
    simp only [listFold] at h
    cases hs : connDataStep s name val with
    | error e => rw [hs] at h; exact Except.noConfusion h
    | ok s₁ =>
      rw [hs] at h
      have hn : ¬(name = asciiBytes "latching") := by
        intro hn
        rw [if_pos hn] at hcount
        omega
      calc s'.latching = s₁.latching := ih s₁ s' (by omega) h
        _ = s.latching := connStep_latching_unchanged s s₁ name val hn hs

/-- C9, counterexample: a `Connection` record whose `latching` value
is the two bytes `"00"` — neither exactly `'0'` nor `'1'` — parses
successfully (as `latching = false`) instead of failing
`InvalidRecord` as claimed. -/
theorem c9_counterexample :
    (Connection.read_data
        (Cursor.new (u32le connSecondaryLatching00.length ++ connSecondaryLatching00))
        ⟨some 7, some (asciiBytes "/a")⟩).map (fun p => p.1.latching) = .ok false ∧
    ([48, 48] : List Nat) ≠ [48] ∧ ([48, 48] : List Nat) ≠ [49] :=
  ⟨rfl, by decide, by decide⟩

/-- C9 (amended): the `latching` field is judged by its first byte
only — `'0'` parses false, `'1'` parses true (regardless of any
following bytes), and an empty value or any other first byte fails
`InvalidRecord`; when the field is absent the flag defaults to
false. -/
theorem c9_latching_semantics :
    (∀ (s : ConnState) (v : List Nat), v.head? = some 48 →
        connDataStep s (asciiBytes "latching") v = .ok { s with latching := false })
  ∧ (∀ (s : ConnState) (v : List Nat), v.head? = some 49 →
        connDataStep s (asciiBytes "latching") v = .ok { s with latching := true })
  ∧ (∀ (s : ConnState) (v : List Nat) (b : Nat), v.head? = some b →
        b ≠ 48 → b ≠ 49 →
        connDataStep s (asciiBytes "latching") v = .error (.ros .InvalidRecord))
  ∧ (∀ (s : ConnState),
        connDataStep s (asciiBytes "latching") [] = .error (.ros .InvalidRecord))
  ∧ (∀ (c c₁ : Cursor) (id : Nat) (st buf : List Nat)
        (l : List (List Nat × List Nat)) (v : Connection) (c' : Cursor),
        c.next_chunk = .ok (buf, c₁) →
        fieldsOf buf = .ok l →
        countName l "latching" = 0 →
        Connection.read_data c ⟨some id, some st⟩ = .ok (v, c') →
        v.latching = false) := by
  have hlat : ∀ (s : ConnState) (v : List Nat),
      connDataStep s (asciiBytes "latching") v =
        match v.head? with
        | some b =>
          if b = 49 then .ok { s with latching := true }
          else if b = 48 then .ok { s with latching := false }
          else .error (.ros .InvalidRecord)
        | none => .error (.ros .InvalidRecord) := by
    intro s v
    unfold connDataStep
    rw [if_neg (by decide : ¬(asciiBytes "latching" = asciiBytes "topic")),
        if_neg (by decide : ¬(asciiBytes "latching" = asciiBytes "type")),
        if_neg (by decide : ¬(asciiBytes "latching" = asciiBytes "md5sum")),
        if_neg (by decide : ¬(asciiBytes "latching" = asciiBytes "message_definition")),
        if_neg (by decide : ¬(asciiBytes "latching" = asciiBytes "callerid")),
        if_pos rfl]
  refine ⟨fun s v hv => ?_, fun s v hv => ?_, fun s v b hv h48 h49 => ?_,
          fun s => ?_, fun c c₁ id st buf l v c' hnc hfields hcount hok => ?_⟩
  · rw [hlat, hv]
    simp
  · rw [hlat, hv]
    simp
  · rw [hlat, hv]
    simp only [if_neg h49, if_neg h48]
  · rw [hlat]
    rfl
  · unfold Connection.read_data at hok
    simp only [hnc] at hok
    rw [foldFields_eq_listFold connDataStep buf.length _ _ connStateInit hfields] at hok
    split at hok
    · exact Except.noConfusion hok
    · rename_i s hfold
      split at hok
      · injection hok with hok
        injection hok with h1 h2
        subst h1
        have hu := connFold_latching_unchanged l connStateInit s hcount hfold
        simpa [connStateInit] using hu
      · exact Except.noConfusion hok

/-- C9 witness: the first-byte semantics at concrete values `"0"`,
`"1x"`, `"2"`, `""`, and the default over a record without a
`latching` field. -/
theorem c9_witness :
    (connDataStep connStateInit (asciiBytes "latching") [48]
        = .ok { connStateInit with latching := false })
  ∧ (connDataStep connStateInit (asciiBytes "latching") [49, 120]
        = .ok { connStateInit with latching := true })
  ∧ (connDataStep connStateInit (asciiBytes "latching") [50]
        = .error (.ros .InvalidRecord))
  ∧ (connDataStep connStateInit (asciiBytes "latching") []
        = .error (.ros .InvalidRecord))
  ∧ ((⟨7, asciiBytes "/a", asciiBytes "/a", asciiBytes "t",
        List.replicate 16 170, [], [], false⟩ : Connection).latching = false) :=
  ⟨c9_latching_semantics.1 connStateInit [48] rfl,
   c9_latching_semantics.2.1 connStateInit [49, 120] rfl,
   c9_latching_semantics.2.2.1 connStateInit [50] 50 rfl (by decide) (by decide),
   c9_latching_semantics.2.2.2.1 connStateInit,
   c9_latching_semantics.2.2.2.2
     (Cursor.new (u32le connSecondaryNoLatching.length ++ connSecondaryNoLatching))
     ⟨u32le connSecondaryNoLatching.length ++ connSecondaryNoLatching,
      4 + connSecondaryNoLatching.length⟩
     7 (asciiBytes "/a") connSecondaryNoLatching
     [(asciiBytes "topic", asciiBytes "/a"), (asciiBytes "type", asciiBytes "t"),
      (asciiBytes "md5sum", List.replicate 32 97),
      (asciiBytes "message_definition", [])]
     ⟨7, asciiBytes "/a", asciiBytes "/a", asciiBytes "t",
      List.replicate 16 170, [], [], false⟩
     ⟨u32le connSecondaryNoLatching.length ++ connSecondaryNoLatching,
      4 + connSecondaryNoLatching.length⟩
     (by rfl) (by rfl) (by decide) (by rfl)⟩

end Rosbag
